import Mathlib

/-!
Formal model of the transaction mutation engine of `src/server.js`
(habit-tracker2).  The model covers the balance-effect calculator
(`applyTransactionEffect` / `reverseTransactionEffect`), the balance
validator (`validateSufficientBalance`), input validation
(`validateTransactionInput`), the audit recorder
(`recordTransactionHistory`), and the four mutation endpoints
(POST/PUT/DELETE `/api/transactions`, POST `/api/transactions/:id/restore`).

Modelling conventions:
* Amounts, balances and exchange rates are rationals (the source uses
  JavaScript numbers; the claims are about exact arithmetic).
* A single user is modelled: every source query is scoped by
  `user_id = req.user.id`, which always matches here, so the user column
  is dropped.
* JavaScript truthiness is modelled explicitly: an account reference is
  `Option Nat` (falsy when absent or 0), an optional amount column is
  `Option Rat` (falsy when absent or 0), a string is falsy when empty.
* The SQLite transaction (BEGIN/COMMIT/ROLLBACK) is modelled by returning
  the untouched input state on every rollback path; each endpoint is a
  pure function from state to state plus response.
* The external exchange-rate service (`fetchExchangeRate`) is an injected
  oracle parameter `cr : String → String → Rat`; the `convertCurrency`
  wrapper around it is translated from the source.
-/

/-- JS truthiness of an account-id value: `null`/`undefined` and `0` are falsy. -/
def idVal (x : Option Nat) : Nat := x.getD 0

/-- `x` is truthy as a JS account reference. -/
def idTruthy (x : Option Nat) : Prop := idVal x ≠ 0

instance (x : Option Nat) : Decidable (idTruthy x) := by
  unfold idTruthy; infer_instance

/-- JS `x || null` on an account-id column value. -/
def jsIdOrNone (x : Option Nat) : Option Nat := if idVal x = 0 then none else x

/-- JS `x || d` on a numeric value that may be null: `null` and `0` are falsy. -/
def jsNumOr (x : Option Rat) (d : Rat) : Rat := if x.getD 0 = 0 then d else x.getD 0

/-- JS `x || null` on a numeric column value: `null` and `0` become `null`. -/
def jsNumOrNone (x : Option Rat) : Option Rat := if x.getD 0 = 0 then none else x

/-- JS `s || d` on a string: the empty string is falsy. -/
def jsStrOr (s d : String) : String := if s = "" then d else s

/-- Account row: `accounts(id, balance)`; the other columns play no role in
the mutation engine. -/
structure Account where
  id : Nat
  balance : Rat
deriving DecidableEq, Repr

/-- Transaction row, the columns read or written by the mutation engine.
`deleted_at = none` means the row is active. -/
structure Txn where
  id : Nat
  account_id : Option Nat
  to_account_id : Option Nat
  date : String
  type : String
  category : String
  amount : Rat
  currency : String
  converted_amount : Option Rat
  exchange_rate : Option Rat
  description : String
  deleted_at : Option String
  deleted_reason : Option String
deriving DecidableEq, Repr

/-- `transaction_history` row as inserted by `recordTransactionHistory`. -/
structure HistRow where
  transaction_id : Nat
  account_id : Option Nat
  to_account_id : Option Nat
  date : String
  type : String
  category : String
  amount : Rat
  currency : String
  converted_amount : Option Rat
  exchange_rate : Option Rat
  description : String
  action : String
deriving DecidableEq, Repr

/-- The ledger store: account rows, transaction rows, history rows, and the
next AUTOINCREMENT transaction id. -/
structure St where
  accounts : List Account
  txns : List Txn
  history : List HistRow
  nextTxnId : Nat
deriving DecidableEq, Repr

/-- A create/edit request body, by the observations the engine makes of it.
`amount = none` stands for an absent or non-numeric (NaN) amount;
`currencyTruthy`/`currencyNum`/`currencyStr` are the truthiness, the
`Number(...)` value (`none` = NaN) and the stored string form of the
`currency` field. -/
structure TxnReq where
  account_id : Option Nat
  to_account_id : Option Nat
  date : String
  type : String
  category : String
  amount : Option Rat
  currencyTruthy : Bool
  currencyNum : Option Rat
  currencyStr : String
  description : String
deriving DecidableEq, Repr

/-- The numeric amount of a request (used by the source wherever `amount`
appears in arithmetic, always after validation has ensured it is present). -/
def numAmount (r : TxnReq) : Rat := r.amount.getD 0

/-- `validateTransactionInput` (server.js lines 448-460), translated
check by check. -/
def validateTransactionInput (r : TxnReq) : Option String :=
  if ¬ (r.type = "income" ∨ r.type = "expense" ∨ r.type = "transfer" ∨ r.type = "conversion") then
    some "Invalid transaction type."
  else if r.amount.isNone then some "Amount must be a non-negative number."
  else if numAmount r < 0 then some "Amount must be a non-negative number."
  else if r.date = "" then some "Date is required."
  else if r.category = "" then some "Category is required."
  else if (r.type = "income" ∨ r.type = "expense") ∧ ¬ idTruthy r.account_id then
    some "Account is required for this transaction."
  else if r.type = "transfer" ∨ r.type = "conversion" then
    if ¬ idTruthy r.account_id ∨ ¬ idTruthy r.to_account_id then
      some "Both source and destination accounts are required for transfer."
    else if r.account_id = r.to_account_id then
      some "Source and destination accounts must differ."
    else none
  else none

/-- Result of `validateSufficientBalance`: either `{valid: true}` or the
rejection object with its payload fields. -/
inductive BalanceCheck where
  | valid
  | insufficient (error : String) (availableBalance attemptedAmount shortfall : Rat)
deriving DecidableEq, Repr

/-- `Math.abs`. -/
def mathAbs (x : Rat) : Rat := if x < 0 then -x else x

/-- `validateSufficientBalance` (server.js lines 474-488). -/
def validateSufficientBalance (account : Account) (amount : Rat) : BalanceCheck :=
  let postTransactionBalance := account.balance - amount
  if postTransactionBalance < 0 then
    .insufficient "Insufficient funds" account.balance amount
      (mathAbs postTransactionBalance)
  else .valid

/-- The destination-side amount of a transaction row:
`type === 'conversion' ? (transaction.converted_amount || amount) : amount`. -/
def destAmount (t : Txn) : Rat :=
  if t.type = "conversion" then jsNumOr t.converted_amount t.amount else t.amount

/-- The per-account signed balance deltas applied by `applyTransactionEffect`
(server.js lines 513-532), one list entry per SQL UPDATE, in source order. -/
def effectDeltas (t : Txn) : List (Nat × Rat) :=
  if t.type = "income" ∧ idTruthy t.account_id then
    [(idVal t.account_id, t.amount)]
  else if t.type = "expense" ∧ idTruthy t.account_id then
    [(idVal t.account_id, -t.amount)]
  else if (t.type = "transfer" ∨ t.type = "conversion") ∧
      idTruthy t.account_id ∧ idTruthy t.to_account_id then
    [(idVal t.account_id, -t.amount), (idVal t.to_account_id, destAmount t)]
  else []

/-- The per-account signed balance deltas applied by
`reverseTransactionEffect` (server.js lines 491-510), in source order. -/
def reverseDeltas (t : Txn) : List (Nat × Rat) :=
  if t.type = "income" ∧ idTruthy t.account_id then
    [(idVal t.account_id, -t.amount)]
  else if t.type = "expense" ∧ idTruthy t.account_id then
    [(idVal t.account_id, t.amount)]
  else if (t.type = "transfer" ∨ t.type = "conversion") ∧
      idTruthy t.account_id ∧ idTruthy t.to_account_id then
    [(idVal t.account_id, t.amount), (idVal t.to_account_id, -destAmount t)]
  else []

/-- One SQL `UPDATE accounts SET balance = balance + δ WHERE id = aid`. -/
def updateBalance (aid : Nat) (δ : Rat) (s : St) : St :=
  { s with accounts :=
      s.accounts.map fun a => if a.id = aid then { a with balance := a.balance + δ } else a }

/-- Apply a list of balance deltas in order. -/
def applyDeltas : List (Nat × Rat) → St → St
  | [], s => s
  | (aid, δ) :: rest, s => applyDeltas rest (updateBalance aid δ s)

/-- `applyTransactionEffect` as a state transformer. -/
def applyTransactionEffect (t : Txn) (s : St) : St := applyDeltas (effectDeltas t) s

/-- `reverseTransactionEffect` as a state transformer. -/
def reverseTransactionEffect (t : Txn) (s : St) : St := applyDeltas (reverseDeltas t) s

/-- The history row inserted by `recordTransactionHistory` (server.js lines
535-555), with the falsy-field normalizations of the source
(`account_id || null`, `currency || 'USD'`, `converted_amount || null`,
`exchange_rate || null`, `description || ''`). -/
def histRowOf (t : Txn) (action : String) : HistRow :=
  { transaction_id := t.id
    account_id := jsIdOrNone t.account_id
    to_account_id := jsIdOrNone t.to_account_id
    date := t.date
    type := t.type
    category := t.category
    amount := t.amount
    currency := jsStrOr t.currency "USD"
    converted_amount := jsNumOrNone t.converted_amount
    exchange_rate := jsNumOrNone t.exchange_rate
    description := t.description
    action := action }

/-- `recordTransactionHistory` (server.js lines 535-555): one INSERT into
`transaction_history`. -/
def recordTransactionHistory (t : Txn) (action : String) (s : St) : St :=
  { s with history := s.history ++ [histRowOf t action] }

/-- `SELECT * FROM accounts WHERE id = ? AND user_id = ?`. -/
def findAccount (s : St) (aid : Nat) : Option Account :=
  s.accounts.find? fun a => a.id = aid

/-- `SELECT * FROM transactions WHERE id = ? AND user_id = ? AND deleted_at IS NULL`. -/
def findActiveTxn (s : St) (tid : Nat) : Option Txn :=
  s.txns.find? fun t => t.id = tid ∧ t.deleted_at = none

/-- `SELECT * FROM transactions WHERE id = ? AND user_id = ? AND deleted_at IS NOT NULL`. -/
def findDeletedTxn (s : St) (tid : Nat) : Option Txn :=
  s.txns.find? fun t => t.id = tid ∧ t.deleted_at ≠ none

/-- `SELECT * FROM transactions WHERE id = ?`. -/
def findTxn (s : St) (tid : Nat) : Option Txn :=
  s.txns.find? fun t => t.id = tid

/-- `UPDATE transactions ... WHERE id = ?`: replace every row with the
given id by the updated row. -/
def updateTxn (tid : Nat) (new : Txn) (s : St) : St :=
  { s with txns := s.txns.map fun t => if t.id = tid then new else t }

/-- `convertCurrency` (server.js lines 314 ff.), returning
`(converted, rate)`; the remote fetch is the oracle `cr` (its error
fallback of rate 1 is folded into the oracle). -/
def convertCurrency (cr : String → String → Rat) (amount : Rat)
    (fromCurrency toCurrency : String) : Rat × Rat :=
  if fromCurrency = toCurrency ∨ fromCurrency = "" ∨ toCurrency = "" then (amount, 1)
  else (amount * cr fromCurrency toCurrency, cr fromCurrency toCurrency)

/-- The conversion block shared verbatim by the create and edit endpoints
(server.js lines 1305-1324 and 1408-1423): computes the stored
`(txCurrency, converted_amount, exchange_rate)` triple for a request.
`dc` is `req.user.default_currency` (possibly empty = falsy). -/
def convFields (cr : String → String → Rat) (dc : String) (r : TxnReq) :
    String × Rat × Rat :=
  let userCurrency := jsStrOr dc "USD"
  let txCurrency := if r.currencyTruthy then r.currencyStr else userCurrency
  let base :=
    if txCurrency ≠ userCurrency ∧ r.type ≠ "transfer" ∧ r.type ≠ "conversion" then
      convertCurrency cr (numAmount r) txCurrency userCurrency
    else (numAmount r, 1)
  let final :=
    if r.type = "conversion" then
      -- exchangeRate = Number(currency) || 1; convertedAmount = amount * exchangeRate
      (numAmount r * jsNumOr r.currencyNum 1, jsNumOr r.currencyNum 1)
    else base
  (txCurrency, final)

/-- Endpoint responses: success, 400 input validation error, 400
insufficient-funds rejection with its payload, or 404. -/
inductive Resp where
  | success
  | invalid (error : String)
  | rejected (error : String) (availableBalance attemptedAmount shortfall : Rat)
  | notFound (error : String)
deriving DecidableEq, Repr

/-- A transaction type that triggers the source-balance pre-check. -/
def debitType (ty : String) : Prop := ty = "expense" ∨ ty = "transfer" ∨ ty = "conversion"

instance (ty : String) : Decidable (debitType ty) := by
  unfold debitType; infer_instance

/-- The transaction row inserted by the create endpoint (server.js lines
1329-1336): raw request fields with `|| null` / `|| ''` normalizations plus
the computed currency triple. -/
def builtTxn (cr : String → String → Rat) (dc : String) (r : TxnReq) (tid : Nat) : Txn :=
  { id := tid
    account_id := jsIdOrNone r.account_id
    to_account_id := jsIdOrNone r.to_account_id
    date := r.date
    type := r.type
    category := r.category
    amount := numAmount r
    currency := (convFields cr dc r).1
    converted_amount := some (convFields cr dc r).2.1
    exchange_rate := some (convFields cr dc r).2.2
    description := r.description
    deleted_at := none
    deleted_reason := none }

/-- The inline balance updates of the create endpoint (server.js lines
1338-1353), applied to the state after the row insert; `targetAmount` for a
conversion is the freshly computed `convertedAmount`. -/
def createBalanceUpdate (cr : String → String → Rat) (dc : String) (r : TxnReq)
    (s1 : St) : St :=
  if r.type = "income" ∧ idTruthy r.account_id then
    updateBalance (idVal r.account_id) (numAmount r) s1
  else if r.type = "expense" ∧ idTruthy r.account_id then
    updateBalance (idVal r.account_id) (-(numAmount r)) s1
  else if (r.type = "transfer" ∨ r.type = "conversion") ∧
      idTruthy r.account_id ∧ idTruthy r.to_account_id then
    updateBalance (idVal r.to_account_id)
      (if r.type = "conversion" then (convFields cr dc r).2.1 else numAmount r)
      (updateBalance (idVal r.account_id) (-(numAmount r)) s1)
  else s1

/-- The new-row insert plus inline balance updates of the create endpoint
(server.js lines 1326-1356): runs after validation and balance check. -/
def createCommit (cr : String → String → Rat) (dc : String) (r : TxnReq) (s : St) :
    St × Resp :=
  (createBalanceUpdate cr dc r
    { s with txns := s.txns ++ [builtTxn cr dc r s.nextTxnId],
             nextTxnId := s.nextTxnId + 1 },
   .success)

/-- POST `/api/transactions` (server.js lines 1284-1363). -/
def createTransaction (cr : String → String → Rat) (dc : String) (r : TxnReq) (s : St) :
    St × Resp :=
  match validateTransactionInput r with
  | some e => (s, .invalid e)
  | none =>
    if debitType r.type ∧ idTruthy r.account_id then
      match findAccount s (idVal r.account_id) with
      | none => (s, .notFound "Source account not found")
      | some sourceAccount =>
        match validateSufficientBalance sourceAccount (numAmount r) with
        | .insufficient e b x sf => (s, .rejected e b x sf)
        | .valid => createCommit cr dc r s
    else createCommit cr dc r s

/-- The row written by step 4 of the edit endpoint (server.js lines
1425-1444): the UPDATE overwrites the descriptor fields and leaves id and
soft-delete markers untouched. -/
def editedTxn (cr : String → String → Rat) (dc : String) (r : TxnReq)
    (existingTx : Txn) : Txn :=
  { existingTx with
    account_id := jsIdOrNone r.account_id
    to_account_id := jsIdOrNone r.to_account_id
    date := r.date
    type := r.type
    category := r.category
    amount := numAmount r
    currency := (convFields cr dc r).1
    converted_amount := some (convFields cr dc r).2.1
    exchange_rate := some (convFields cr dc r).2.2
    description := r.description }

/-- Steps 3-6 of the edit endpoint (server.js lines 1408-1456): runs on the
tentatively-reversed state `s1` after validation has passed. -/
def editCommit (cr : String → String → Rat) (dc : String) (tid : Nat) (r : TxnReq)
    (existingTx : Txn) (s1 : St) : St × Resp :=
  let newTx : Txn := editedTxn cr dc r existingTx
  let s2 := updateTxn tid newTx s1
  -- updatedTx re-read from the store is the row just written
  let s3 := applyTransactionEffect newTx s2
  let s4 := recordTransactionHistory newTx "edit" s3
  (s4, .success)

/-- PUT `/api/transactions/:id` (server.js lines 1365-1464).  Every
rollback path returns the original state `s`. -/
def editTransaction (cr : String → String → Rat) (dc : String) (tid : Nat) (r : TxnReq)
    (s : St) : St × Resp :=
  match validateTransactionInput r with
  | some e => (s, .invalid e)
  | none =>
    match findActiveTxn s tid with
    | none => (s, .notFound "Transaction not found")
    | some existingTx =>
      -- BEGIN; 1. reverse the old transaction effect (the tentative state
      -- passed to the later steps); 2. validate the new transaction
      -- against the reversed balance
      if debitType r.type ∧ idTruthy r.account_id then
        match findAccount (reverseTransactionEffect existingTx s) (idVal r.account_id) with
        | none => (s, .notFound "Source account not found")
        | some sourceAccount =>
          match validateSufficientBalance sourceAccount (numAmount r) with
          | .insufficient e b x sf => (s, .rejected e b x sf)
          | .valid => editCommit cr dc tid r existingTx (reverseTransactionEffect existingTx s)
      else editCommit cr dc tid r existingTx (reverseTransactionEffect existingTx s)

/-- DELETE `/api/transactions/:id` (server.js lines 1466-1504).
`reason` is `req.body.reason` (empty = falsy), `now` the timestamp. -/
def deleteTransaction (reason : String) (now : String) (tid : Nat) (s : St) :
    St × Resp :=
  match findActiveTxn s tid with
  | none => (s, .notFound "Transaction not found")
  | some transaction =>
    let s1 := reverseTransactionEffect transaction s
    let deletedReason := jsStrOr reason "User deleted"
    let s2 := updateTxn tid
      { transaction with deleted_at := some now, deleted_reason := some deletedReason } s1
    let s3 := recordTransactionHistory transaction "delete" s2
    (s3, .success)

/-- Steps 2-4 of the restore endpoint (server.js lines 1540-1552). -/
def restoreCommit (tid : Nat) (transaction : Txn) (s : St) : St × Resp :=
  let s1 := applyTransactionEffect transaction s
  let s2 := updateTxn tid
    { transaction with deleted_at := none, deleted_reason := none } s1
  let s3 := recordTransactionHistory transaction "restore" s2
  (s3, .success)

/-- POST `/api/transactions/:id/restore` (server.js lines 1506-1564). -/
def restoreTransaction (tid : Nat) (s : St) : St × Resp :=
  match findDeletedTxn s tid with
  | none => (s, .notFound "Deleted transaction not found")
  | some transaction =>
    if debitType transaction.type ∧ idTruthy transaction.account_id then
      match findAccount s (idVal transaction.account_id) with
      | none => (s, .notFound "Source account not found")
      | some sourceAccount =>
        match validateSufficientBalance sourceAccount transaction.amount with
        | .insufficient e b x sf => (s, .rejected ("Cannot restore: " ++ e) b x sf)
        | .valid => restoreCommit tid transaction s
    else restoreCommit tid transaction s

/-- One mutation operation of the engine. -/
inductive Op where
  | create (r : TxnReq)
  | edit (tid : Nat) (r : TxnReq)
  | delete (tid : Nat) (reason : String) (now : String)
  | restore (tid : Nat)
deriving DecidableEq, Repr

/-- Dispatch one operation. -/
def step (cr : String → String → Rat) (dc : String) (s : St) : Op → St × Resp
  | .create r => createTransaction cr dc r s
  | .edit tid r => editTransaction cr dc tid r s
  | .delete tid reason now => deleteTransaction reason now tid s
  | .restore tid => restoreTransaction tid s

/-- Run a sequence of operations, keeping only the state. -/
def runOps (cr : String → String → Rat) (dc : String) (s : St) : List Op → St
  | [] => s
  | op :: rest => runOps cr dc (step cr dc s op).1 rest

/-- Every operation of the sequence succeeds (returns the success response). -/
def allSucceed (cr : String → String → Rat) (dc : String) (s : St) : List Op → Prop
  | [] => True
  | op :: rest =>
    (step cr dc s op).2 = .success ∧ allSucceed cr dc (step cr dc s op).1 rest

instance (cr : String → String → Rat) (dc : String) (s : St) (ops : List Op) :
    Decidable (allSucceed cr dc s ops) := by
  induction ops generalizing s with
  | nil => exact isTrue trivial
  | cons op rest ih => exact @instDecidableAnd _ _ _ (ih _)

/-! ### Derived quantities and invariant predicates -/

/-- Net signed delta of a delta list on one account id. -/
def deltaSum (ds : List (Nat × Rat)) (aid : Nat) : Rat :=
  (ds.map fun p => if p.1 = aid then p.2 else 0).sum

/-- Contribution of one transaction row to one account: its net effect when
active, `0` when soft-deleted. -/
def txContrib (t : Txn) (aid : Nat) : Rat :=
  if t.deleted_at = none then deltaSum (effectDeltas t) aid else 0

/-- Net effect on account `aid` of all transactions with `deleted_at IS NULL`. -/
def activeSum (s : St) (aid : Nat) : Rat :=
  (s.txns.map fun t => txContrib t aid).sum

/-- The reconciliation invariant: each account balance equals its initial
balance (`init` keyed by account id) plus the net effect of all active
transactions referencing it. -/
def reconciled (init : Nat → Rat) (s : St) : Prop :=
  ∀ a ∈ s.accounts, a.balance = init a.id + activeSum s a.id

instance (init : Nat → Rat) (s : St) : Decidable (reconciled init s) := by
  unfold reconciled; infer_instance

/-- All account balances are nonnegative. -/
def nonnegBalances (s : St) : Prop := ∀ a ∈ s.accounts, 0 ≤ a.balance

instance (s : St) : Decidable (nonnegBalances s) := by
  unfold nonnegBalances; infer_instance

/-- Stored amounts are nonnegative, and so is the destination-side amount
of every transfer/conversion row. -/
def amountsOk (s : St) : Prop :=
  ∀ t ∈ s.txns, 0 ≤ t.amount ∧
    ((t.type = "transfer" ∨ t.type = "conversion") → 0 ≤ destAmount t)

instance (s : St) : Decidable (amountsOk s) := by
  unfold amountsOk; infer_instance

/-- Store well-formedness: transaction ids are distinct and below the
AUTOINCREMENT counter, and account ids are distinct. -/
def WF (s : St) : Prop :=
  (s.txns.map Txn.id).Nodup ∧ (∀ t ∈ s.txns, t.id < s.nextTxnId) ∧
    (s.accounts.map Account.id).Nodup

instance (s : St) : Decidable (WF s) := by
  unfold WF; infer_instance

/-! ### Basic lemmas about the state transformers -/

theorem updateBalance_txns (aid : Nat) (d : Rat) (s : St) :
    (updateBalance aid d s).txns = s.txns := rfl

theorem updateBalance_history (aid : Nat) (d : Rat) (s : St) :
    (updateBalance aid d s).history = s.history := rfl

theorem updateBalance_nextTxnId (aid : Nat) (d : Rat) (s : St) :
    (updateBalance aid d s).nextTxnId = s.nextTxnId := rfl

theorem applyDeltas_txns (ds : List (Nat × Rat)) (s : St) :
    (applyDeltas ds s).txns = s.txns := by
  induction ds generalizing s with
  | nil => rfl
  | cons p rest ih => simpa [applyDeltas] using ih (updateBalance p.1 p.2 s)

theorem applyDeltas_history (ds : List (Nat × Rat)) (s : St) :
    (applyDeltas ds s).history = s.history := by
  induction ds generalizing s with
  | nil => rfl
  | cons p rest ih => simpa [applyDeltas] using ih (updateBalance p.1 p.2 s)

theorem applyDeltas_nextTxnId (ds : List (Nat × Rat)) (s : St) :
    (applyDeltas ds s).nextTxnId = s.nextTxnId := by
  induction ds generalizing s with
  | nil => rfl
  | cons p rest ih => simpa [applyDeltas] using ih (updateBalance p.1 p.2 s)

/-- Applying a delta list shifts each account balance by the net delta on
its id. -/
theorem applyDeltas_accounts (ds : List (Nat × Rat)) (s : St) :
    (applyDeltas ds s).accounts =
      s.accounts.map fun a => { a with balance := a.balance + deltaSum ds a.id } := by
  induction ds generalizing s with
  | nil =>
    simp [applyDeltas, deltaSum]
  | cons p rest ih =>
    obtain ⟨aid, d⟩ := p
    simp only [applyDeltas]
    rw [ih, updateBalance, List.map_map]
    refine List.map_congr_left ?_
    intro a _
    simp only [Function.comp_apply, deltaSum, List.map_cons, List.sum_cons]
    by_cases h : a.id = aid
    · simp [h, add_assoc]
    · have h2 : ¬ aid = a.id := fun hh => h hh.symm
      simp [h, h2]

/-! ### Claim C3: the balance validator -/

/-- C3: for every account with balance `B` and proposed debit `X`, the
validator accepts iff `B - X >= 0` (so `X = B` is accepted), and on
rejection it returns exactly `availableBalance = B`, `attemptedAmount = X`
and `shortfall = X - B`.  The validator is a pure function of its
arguments in this model, mirroring that the source function performs no
database access. -/
theorem validateSufficientBalance_spec (a : Account) (x : Rat) :
    (validateSufficientBalance a x = .valid ↔ 0 ≤ a.balance - x) ∧
    (a.balance - x < 0 →
      validateSufficientBalance a x =
        .insufficient "Insufficient funds" a.balance x (x - a.balance)) := by
  constructor
  · simp only [validateSufficientBalance]
    split_ifs with h
    · simp only [reduceCtorEq, false_iff]; linarith
    · simp only [true_iff]; linarith
  · intro h
    simp only [validateSufficientBalance]
    rw [if_pos h, mathAbs, if_pos h]
    ring_nf

/-- Witness for C3 at the concrete scenario of the spec
(balance 500, attempted debit 750). -/
theorem validateSufficientBalance_spec_witness :
    validateSufficientBalance ⟨1, 500⟩ 750 =
      .insufficient "Insufficient funds" 500 750 (750 - 500) :=
  (validateSufficientBalance_spec ⟨1, 500⟩ 750).2 (by norm_num)

/-! ### Claim C4: reversal is the exact negation of application -/

/-- C4: for every effect descriptor (any type, amounts, account refs and
converted_amount), the per-account deltas of `reverseTransactionEffect`
are the element-wise negation of those of `applyTransactionEffect`, and
both read the same stored `converted_amount` (both lists are computed
from the same row `t`). -/
theorem reverseDeltas_eq_neg_effectDeltas (t : Txn) :
    reverseDeltas t = (effectDeltas t).map fun p => (p.1, -p.2) := by
  unfold reverseDeltas effectDeltas
  split_ifs <;> simp

/-- Net-delta corollary of C4, used by the invariant proofs. -/
theorem deltaSum_reverseDeltas (t : Txn) (aid : Nat) :
    deltaSum (reverseDeltas t) aid = -deltaSum (effectDeltas t) aid := by
  rw [reverseDeltas_eq_neg_effectDeltas]
  unfold deltaSum
  induction effectDeltas t with
  | nil => simp
  | cons p rest ih =>
    simp only [List.map_cons, List.sum_cons, ih]
    by_cases h : p.1 = aid
    · simp [h]; ring
    · simp [h]

/-! ### Claim C5: conversion destination amount -/

/-- A conversion row whose stored `converted_amount` is `0`:
`converted_amount || amount` falls back to `amount`, so the destination
is credited with `amount`, not with the stored `0`. -/
def zeroConvTx : Txn :=
  { id := 1
    account_id := some 1
    to_account_id := some 2
    date := "2026-01-01"
    type := "conversion"
    category := "fx"
    amount := 5
    currency := "2"
    converted_amount := some 0
    exchange_rate := some 2
    description := ""
    deleted_at := none
    deleted_reason := none }

/-- Counterexample to C5 as stated: for this conversion descriptor the
claim says the destination is credited with `converted_amount = 0`
(because it is set), but the code credits it with `amount = 5`. -/
theorem c5_counterexample :
    zeroConvTx.type = "conversion" ∧ zeroConvTx.converted_amount = some 0 ∧
    effectDeltas zeroConvTx = [(1, -5), (2, 5)] ∧ (5 : Rat) ≠ 0 := by
  refine ⟨rfl, rfl, ?_, by norm_num⟩
  decide

/-- C5 (amended): for every conversion descriptor with both accounts
present, the source is debited by `amount` and the destination credited
by `converted_amount` when it is set and nonzero, and by `amount` when it
is unset (null) or set to `0`. -/
theorem conversion_effect_amended (t : Txn) (hty : t.type = "conversion")
    (hs : idTruthy t.account_id) (hd : idTruthy t.to_account_id) :
    effectDeltas t = [(idVal t.account_id, -t.amount),
      (idVal t.to_account_id,
        match t.converted_amount with
        | some c => if c = 0 then t.amount else c
        | none => t.amount)] := by
  have h1 : ¬ (t.type = "income" ∧ idTruthy t.account_id) := by
    rintro ⟨h, -⟩; rw [hty] at h; exact absurd h (by decide)
  have h2 : ¬ (t.type = "expense" ∧ idTruthy t.account_id) := by
    rintro ⟨h, -⟩; rw [hty] at h; exact absurd h (by decide)
  unfold effectDeltas
  rw [if_neg h1, if_neg h2, if_pos ⟨Or.inr hty, hs, hd⟩]
  unfold destAmount jsNumOr
  rw [if_pos hty]
  cases t.converted_amount with
  | none => simp
  | some c => by_cases hc : c = 0 <;> simp [hc]

/-- Witness for the amended C5 at a concrete conversion descriptor. -/
theorem conversion_effect_amended_witness :
    effectDeltas zeroConvTx = [(idVal zeroConvTx.account_id, -zeroConvTx.amount),
      (idVal zeroConvTx.to_account_id,
        match zeroConvTx.converted_amount with
        | some c => if c = 0 then zeroConvTx.amount else c
        | none => zeroConvTx.amount)] :=
  conversion_effect_amended zeroConvTx rfl (by decide) (by decide)

/-! ### Inversion lemmas for the validator and the commit steps -/

/-- What a rejection of the balance validator carries. -/
theorem insufficient_inv {a : Account} {x : Rat} {e : String} {b att sf : Rat}
    (h : validateSufficientBalance a x = .insufficient e b att sf) :
    e = "Insufficient funds" ∧ b = a.balance ∧ att = x ∧
      sf = x - a.balance ∧ a.balance - x < 0 := by
  simp only [validateSufficientBalance] at h
  split_ifs at h with hlt
  · injection h with h1 h2 h3 h4
    refine ⟨h1.symm, h2.symm, h3.symm, ?_, hlt⟩
    rw [← h4, mathAbs, if_pos hlt]; ring

/-- What passing input validation guarantees about the request. -/
theorem validate_none_inv {r : TxnReq} (h : validateTransactionInput r = none) :
    (r.type = "income" ∨ r.type = "expense" ∨ r.type = "transfer" ∨ r.type = "conversion") ∧
    r.amount = some (numAmount r) ∧ 0 ≤ numAmount r ∧ r.date ≠ "" ∧ r.category ≠ "" ∧
    ((r.type = "income" ∨ r.type = "expense") → idTruthy r.account_id) ∧
    ((r.type = "transfer" ∨ r.type = "conversion") →
      idTruthy r.account_id ∧ idTruthy r.to_account_id ∧ r.account_id ≠ r.to_account_id) := by
  unfold validateTransactionInput at h
  split_ifs at h with h1 h2 h3 h4 h5 h6 h7 h8 h9
  · -- transfer/conversion branch passed all checks
    push_neg at h1 h8
    refine ⟨h1, ?_, not_lt.mp h3, h4, h5, fun _ => h8.1, fun _ => ⟨h8.1, h8.2, h9⟩⟩
    cases ha : r.amount with
    | none => rw [ha] at h2; exact absurd rfl h2
    | some q => simp [numAmount, ha]
  · -- income/expense branch passed all checks
    push_neg at h1
    have hacc : (r.type = "income" ∨ r.type = "expense") → idTruthy r.account_id := by
      intro hie; by_contra hnt; exact h6 ⟨hie, hnt⟩
    refine ⟨h1, ?_, not_lt.mp h3, h4, h5, hacc, fun ht => absurd ht h7⟩
    cases ha : r.amount with
    | none => rw [ha] at h2; exact absurd rfl h2
    | some q => simp [numAmount, ha]

theorem createCommit_snd (cr : String → String → Rat) (dc : String) (r : TxnReq) (s : St) :
    (createCommit cr dc r s).2 = .success := rfl

theorem createBalanceUpdate_txns (cr : String → String → Rat) (dc : String)
    (r : TxnReq) (s1 : St) : (createBalanceUpdate cr dc r s1).txns = s1.txns := by
  unfold createBalanceUpdate
  split_ifs <;> rfl

theorem createBalanceUpdate_history (cr : String → String → Rat) (dc : String)
    (r : TxnReq) (s1 : St) : (createBalanceUpdate cr dc r s1).history = s1.history := by
  unfold createBalanceUpdate
  split_ifs <;> rfl

theorem createBalanceUpdate_nextTxnId (cr : String → String → Rat) (dc : String)
    (r : TxnReq) (s1 : St) : (createBalanceUpdate cr dc r s1).nextTxnId = s1.nextTxnId := by
  unfold createBalanceUpdate
  split_ifs <;> rfl

theorem editCommit_snd (cr : String → String → Rat) (dc : String) (tid : Nat)
    (r : TxnReq) (ex : Txn) (s1 : St) :
    (editCommit cr dc tid r ex s1).2 = .success := rfl

theorem restoreCommit_snd (tid : Nat) (t : Txn) (s : St) :
    (restoreCommit tid t s).2 = .success := rfl

theorem createCommit_txns (cr : String → String → Rat) (dc : String) (r : TxnReq) (s : St) :
    (createCommit cr dc r s).1.txns = s.txns ++ [builtTxn cr dc r s.nextTxnId] := by
  unfold createCommit
  rw [createBalanceUpdate_txns]

theorem createCommit_history (cr : String → String → Rat) (dc : String) (r : TxnReq) (s : St) :
    (createCommit cr dc r s).1.history = s.history := by
  unfold createCommit
  rw [createBalanceUpdate_history]

theorem createCommit_nextTxnId (cr : String → String → Rat) (dc : String) (r : TxnReq)
    (s : St) : (createCommit cr dc r s).1.nextTxnId = s.nextTxnId + 1 := by
  unfold createCommit
  rw [createBalanceUpdate_nextTxnId]

theorem recordTransactionHistory_txns (t : Txn) (action : String) (s : St) :
    (recordTransactionHistory t action s).txns = s.txns := rfl

theorem recordTransactionHistory_accounts (t : Txn) (action : String) (s : St) :
    (recordTransactionHistory t action s).accounts = s.accounts := rfl

theorem recordTransactionHistory_nextTxnId (t : Txn) (action : String) (s : St) :
    (recordTransactionHistory t action s).nextTxnId = s.nextTxnId := rfl

theorem recordTransactionHistory_history (t : Txn) (action : String) (s : St) :
    (recordTransactionHistory t action s).history =
      s.history ++ [histRowOf t action] := rfl

theorem updateTxn_accounts (tid : Nat) (new : Txn) (s : St) :
    (updateTxn tid new s).accounts = s.accounts := rfl

theorem updateTxn_history (tid : Nat) (new : Txn) (s : St) :
    (updateTxn tid new s).history = s.history := rfl

theorem updateTxn_nextTxnId (tid : Nat) (new : Txn) (s : St) :
    (updateTxn tid new s).nextTxnId = s.nextTxnId := rfl

theorem editCommit_txns (cr : String → String → Rat) (dc : String) (tid : Nat)
    (r : TxnReq) (ex : Txn) (s1 : St) :
    (editCommit cr dc tid r ex s1).1.txns =
      s1.txns.map fun u => if u.id = tid then editedTxn cr dc r ex else u := by
  show (recordTransactionHistory _ _ (applyTransactionEffect _ (updateTxn tid _ s1))).txns = _
  rw [recordTransactionHistory_txns, applyTransactionEffect, applyDeltas_txns]
  rfl

theorem findActiveTxn_inv {s : St} {tid : Nat} {t : Txn}
    (h : findActiveTxn s tid = some t) :
    t ∈ s.txns ∧ t.id = tid ∧ t.deleted_at = none := by
  have hm := List.mem_of_find?_eq_some h
  have hp := List.find?_some h
  simp only [decide_eq_true_eq] at hp
  exact ⟨hm, hp.1, hp.2⟩

theorem findDeletedTxn_inv {s : St} {tid : Nat} {t : Txn}
    (h : findDeletedTxn s tid = some t) :
    t ∈ s.txns ∧ t.id = tid ∧ t.deleted_at ≠ none := by
  have hm := List.mem_of_find?_eq_some h
  have hp := List.find?_some h
  simp only [decide_eq_true_eq] at hp
  exact ⟨hm, hp.1, hp.2⟩

theorem findAccount_inv {s : St} {aid : Nat} {a : Account}
    (h : findAccount s aid = some a) : a ∈ s.accounts ∧ a.id = aid := by
  have hm := List.mem_of_find?_eq_some h
  have hp := List.find?_some h
  simp only [decide_eq_true_eq] at hp
  exact ⟨hm, hp⟩

/-! ### Claim C6: a rejected edit aborts the whole unit -/

/-- C6: whenever the edit endpoint returns an insufficient-funds rejection,
the returned state is exactly the pre-edit state (the tentative reversal is
rolled back: transaction rows, balances and history are untouched), and
the rejection payload carries availableBalance, attemptedAmount (the
requested amount) and shortfall = attemptedAmount - availableBalance. -/
theorem edit_rejection_atomic (cr : String → String → Rat) (dc : String) (tid : Nat)
    (r : TxnReq) (s : St) (e : String) (b x sf : Rat)
    (h : (editTransaction cr dc tid r s).2 = .rejected e b x sf) :
    (editTransaction cr dc tid r s).1 = s ∧ e = "Insufficient funds" ∧
      x = numAmount r ∧ sf = x - b := by
  unfold editTransaction at h ⊢
  split at h
  · simp at h
  · next heqv =>
    split at h
    · simp at h
    · next ex heqf =>
      by_cases hdg : debitType r.type ∧ idTruthy r.account_id
      · rw [if_pos hdg] at h ⊢
        split at h
        · simp at h
        · next acct heqa =>
          split at h
          · next e0 b0 x0 sf0 heqb =>
            obtain ⟨he0, hb0, hx0, hsf0, hlt⟩ := insufficient_inv heqb
            injection h with he hb hx hsf
            exact ⟨rfl, by rw [← he, he0], by rw [← hx, hx0], by linarith⟩
          · rw [editCommit_snd] at h
            simp at h
      · rw [if_neg hdg] at h
        rw [editCommit_snd] at h
        simp at h

/-- Fixture: one account with id 1 and balance 0. -/
def wExpenseTx : Txn :=
  { id := 1
    account_id := some 1
    to_account_id := none
    date := "2026-01-01"
    type := "expense"
    category := "food"
    amount := 0
    currency := "USD"
    converted_amount := some 0
    exchange_rate := some 1
    description := ""
    deleted_at := none
    deleted_reason := none }

/-- Fixture: a store with one zero-balance account and one active
zero-amount expense. -/
def wSt : St :=
  { accounts := [⟨1, 0⟩], txns := [wExpenseTx], history := [], nextTxnId := 2 }

/-- Fixture: an edit request raising the expense to 10. -/
def wEditReq : TxnReq :=
  { account_id := some 1
    to_account_id := none
    date := "2026-01-02"
    type := "expense"
    category := "food"
    amount := some 10
    currencyTruthy := false
    currencyNum := none
    currencyStr := ""
    description := "" }

/-- Witness for C6: editing the zero-amount expense to 10 against a zero
balance is rejected and leaves the store untouched. -/
theorem edit_rejection_atomic_witness :
    (editTransaction (fun _ _ => (1 : Rat)) "USD" 1 wEditReq wSt).1 = wSt ∧
      "Insufficient funds" = "Insufficient funds" ∧
      (10 : Rat) = numAmount wEditReq ∧ (10 : Rat) = 10 - 0 :=
  edit_rejection_atomic (fun _ _ => (1 : Rat)) "USD" 1 wEditReq wSt
    "Insufficient funds" 0 10 10 (by
      norm_num +decide [editTransaction, validateTransactionInput, findActiveTxn,
        findAccount, reverseTransactionEffect, applyDeltas, reverseDeltas,
        updateBalance, validateSufficientBalance, mathAbs, numAmount, idTruthy,
        idVal, debitType, wEditReq, wSt, wExpenseTx, List.find?])

/-! ### Claim C9: invalid input is rejected before any ledger interaction -/

/-- The malformed-request conditions of the claim: invalid type, or a
transfer/conversion with a missing account reference or with source equal
to destination.  (The same-account condition concerns the two types that
have a destination; for income/expense the destination field is ignored
by the engine.) -/
def badInput (r : TxnReq) : Prop :=
  ¬ (r.type = "income" ∨ r.type = "expense" ∨ r.type = "transfer" ∨ r.type = "conversion") ∨
    ((r.type = "transfer" ∨ r.type = "conversion") ∧
      (¬ idTruthy r.account_id ∨ ¬ idTruthy r.to_account_id ∨
        r.account_id = r.to_account_id))

instance (r : TxnReq) : Decidable (badInput r) := by
  unfold badInput; infer_instance

/-- C9: a request with an invalid type, or a transfer/conversion with a
missing account reference or equal source and destination, makes input
validation fail, and both the create and the edit endpoint then return a
400 with the untouched state: no transaction row, no balance change and
no history row (the validation error is returned before any ledger
lookup in the source). -/
theorem invalid_input_no_side_effects (cr : String → String → Rat) (dc : String)
    (tid : Nat) (r : TxnReq) (s : St) (h : badInput r) :
    ∃ e, validateTransactionInput r = some e ∧
      createTransaction cr dc r s = (s, .invalid e) ∧
      editTransaction cr dc tid r s = (s, .invalid e) := by
  cases hval : validateTransactionInput r with
  | none =>
    obtain ⟨hty, -, -, -, -, -, htc⟩ := validate_none_inv hval
    rcases h with hbad | ⟨ht, hrefs⟩
    · exact absurd hty hbad
    · obtain ⟨hsrc, hdst, hne⟩ := htc ht
      rcases hrefs with hh | hh | hh
      · exact absurd hsrc hh
      · exact absurd hdst hh
      · exact absurd hh hne
  | some e =>
    refine ⟨e, rfl, ?_, ?_⟩
    · unfold createTransaction; rw [hval]
    · unfold editTransaction; rw [hval]

/-- Fixture: a transfer request whose source equals its destination. -/
def wBadReq : TxnReq :=
  { account_id := some 1
    to_account_id := some 1
    date := "2026-01-02"
    type := "transfer"
    category := "move"
    amount := some 5
    currencyTruthy := false
    currencyNum := none
    currencyStr := ""
    description := "" }

/-- Witness for C9 at a same-source-and-destination transfer request. -/
theorem invalid_input_no_side_effects_witness :
    ∃ e, validateTransactionInput wBadReq = some e ∧
      createTransaction (fun _ _ => (1 : Rat)) "USD" wBadReq wSt = (wSt, .invalid e) ∧
      editTransaction (fun _ _ => (1 : Rat)) "USD" 1 wBadReq wSt = (wSt, .invalid e) :=
  invalid_input_no_side_effects (fun _ _ => (1 : Rat)) "USD" 1 wBadReq wSt (by decide)

/-! ### Endpoint characterizations on the success path -/

theorem createTransaction_success_eq (cr : String → String → Rat) (dc : String)
    (r : TxnReq) (s : St) (h : (createTransaction cr dc r s).2 = .success) :
    validateTransactionInput r = none ∧
      createTransaction cr dc r s = createCommit cr dc r s := by
  unfold createTransaction at h ⊢
  split at h
  · simp at h
  · next heqv =>
    refine ⟨heqv, ?_⟩
    by_cases hdg : debitType r.type ∧ idTruthy r.account_id
    · rw [if_pos hdg] at h ⊢
      split at h
      · simp at h
      · next acct heqa =>
        split at h
        · simp at h
        · rfl
    · rw [if_neg hdg]

theorem editTransaction_success_eq (cr : String → String → Rat) (dc : String)
    (tid : Nat) (r : TxnReq) (s : St)
    (h : (editTransaction cr dc tid r s).2 = .success) :
    validateTransactionInput r = none ∧ ∃ ex, findActiveTxn s tid = some ex ∧
      editTransaction cr dc tid r s =
        editCommit cr dc tid r ex (reverseTransactionEffect ex s) := by
  unfold editTransaction at h ⊢
  split at h
  · simp at h
  · next heqv =>
    split at h
    · simp at h
    · next ex heqf =>
      refine ⟨heqv, ex, heqf, ?_⟩
      by_cases hdg : debitType r.type ∧ idTruthy r.account_id
      · rw [if_pos hdg] at h ⊢
        split at h
        · simp at h
        · next acct heqa =>
          split at h
          · simp at h
          · rfl
      · rw [if_neg hdg]

/-- The committed state of a successful delete. -/
def deleteCommit (reason now : String) (tid : Nat) (t : Txn) (s : St) : St :=
  recordTransactionHistory t "delete"
    (updateTxn tid
      { t with deleted_at := some now,
               deleted_reason := some (jsStrOr reason "User deleted") }
      (reverseTransactionEffect t s))

theorem deleteTransaction_eq (reason now : String) (tid : Nat) (t : Txn) (s : St)
    (h : findActiveTxn s tid = some t) :
    deleteTransaction reason now tid s = (deleteCommit reason now tid t s, .success) := by
  unfold deleteTransaction
  rw [h]
  rfl

theorem deleteTransaction_success_find (reason now : String) (tid : Nat) (s : St)
    (h : (deleteTransaction reason now tid s).2 = .success) :
    ∃ t, findActiveTxn s tid = some t := by
  unfold deleteTransaction at h
  split at h
  · simp at h
  · next t heq => exact ⟨t, heq⟩

/-- The restore validation step succeeds on state `s` for row `t`. -/
def restoreCheckOk (s : St) (t : Txn) : Prop :=
  (debitType t.type ∧ idTruthy t.account_id) →
    ∃ a, findAccount s (idVal t.account_id) = some a ∧
      validateSufficientBalance a t.amount = .valid

theorem restoreTransaction_eq (tid : Nat) (t : Txn) (s : St)
    (h : findDeletedTxn s tid = some t) (hok : restoreCheckOk s t) :
    restoreTransaction tid s = restoreCommit tid t s := by
  unfold restoreTransaction
  simp only [h]
  by_cases hdg : debitType t.type ∧ idTruthy t.account_id
  · rw [if_pos hdg]
    obtain ⟨a, ha, hv⟩ := hok hdg
    simp only [ha, hv]
  · rw [if_neg hdg]

theorem restoreTransaction_success_inv (tid : Nat) (s : St)
    (h : (restoreTransaction tid s).2 = .success) :
    ∃ t, findDeletedTxn s tid = some t ∧ restoreCheckOk s t ∧
      restoreTransaction tid s = restoreCommit tid t s := by
  unfold restoreTransaction at h ⊢
  split at h
  · simp at h
  · next t heq =>
    refine ⟨t, heq, ?_⟩
    by_cases hdg : debitType t.type ∧ idTruthy t.account_id
    · rw [if_pos hdg] at h ⊢
      split at h
      · simp at h
      · next a heqa =>
        split at h
        · simp at h
        · next heqv =>
          exact ⟨fun _ => ⟨a, heqa, heqv⟩, rfl⟩
    · rw [if_neg hdg]
      exact ⟨fun hc => absurd hc hdg, rfl⟩

/-! ### Claim C10: conversion exchange-rate handling -/

theorem convFields_conversion (cr : String → String → Rat) (dc : String) (r : TxnReq)
    (hty : r.type = "conversion") :
    (convFields cr dc r).2 =
      (numAmount r * jsNumOr r.currencyNum 1, jsNumOr r.currencyNum 1) := by
  unfold convFields
  simp [hty]

/-- C10: for every conversion-type create or edit request, the stored
exchange_rate equals Number(currency) when that value is a truthy number
(nonzero and not NaN; `none` models NaN) and 1 otherwise — so a currency
code like EUR (NaN) or the number 0 stores rate 1 — and the stored
converted_amount always equals amount times that rate. -/
theorem conversion_rate_stored (cr : String → String → Rat) (dc : String)
    (tid : Nat) (r : TxnReq) (s : St) (hty : r.type = "conversion") :
    ((createTransaction cr dc r s).2 = .success →
      ∃ t, (createTransaction cr dc r s).1.txns = s.txns ++ [t] ∧
        t.exchange_rate = some (match r.currencyNum with
          | some q => if q = 0 then 1 else q
          | none => 1) ∧
        t.converted_amount = some (numAmount r * match r.currencyNum with
          | some q => if q = 0 then 1 else q
          | none => 1)) ∧
    ((editTransaction cr dc tid r s).2 = .success →
      ∃ t, t ∈ (editTransaction cr dc tid r s).1.txns ∧ t.id = tid ∧
        t.exchange_rate = some (match r.currencyNum with
          | some q => if q = 0 then 1 else q
          | none => 1) ∧
        t.converted_amount = some (numAmount r * match r.currencyNum with
          | some q => if q = 0 then 1 else q
          | none => 1)) := by
  have hrw : (match r.currencyNum with
      | some q => if q = 0 then 1 else q
      | none => (1 : Rat)) = jsNumOr r.currencyNum 1 := by
    cases r.currencyNum with
    | none => rfl
    | some q =>
      by_cases hq : q = 0
      · simp [jsNumOr, hq]
      · simp [jsNumOr, hq]
  rw [hrw]
  constructor
  · intro hs
    obtain ⟨-, heq⟩ := createTransaction_success_eq cr dc r s hs
    rw [heq, createCommit_txns]
    refine ⟨builtTxn cr dc r s.nextTxnId, rfl, ?_, ?_⟩
    · show some (convFields cr dc r).2.2 = _
      rw [convFields_conversion cr dc r hty]
    · show some (convFields cr dc r).2.1 = _
      rw [convFields_conversion cr dc r hty]
  · intro hs
    obtain ⟨-, ex, hex, heq⟩ := editTransaction_success_eq cr dc tid r s hs
    obtain ⟨hmem, hid, -⟩ := findActiveTxn_inv hex
    rw [heq, editCommit_txns]
    refine ⟨editedTxn cr dc r ex, ?_, ?_, ?_, ?_⟩
    · have hm : ex ∈ (reverseTransactionEffect ex s).txns := by
        rw [reverseTransactionEffect, applyDeltas_txns]; exact hmem
      have hmm := List.mem_map_of_mem
        (fun u => if u.id = tid then editedTxn cr dc r ex else u) hm
      simpa [hid] using hmm
    · show (editedTxn cr dc r ex).id = tid
      simp [editedTxn, hid]
    · show some (convFields cr dc r).2.2 = _
      rw [convFields_conversion cr dc r hty]
    · show some (convFields cr dc r).2.1 = _
      rw [convFields_conversion cr dc r hty]

/-- Fixture: a store with a funded source account and an empty destination. -/
def wSt2 : St :=
  { accounts := [⟨1, 100⟩, ⟨2, 0⟩], txns := [], history := [], nextTxnId := 1 }

/-- Fixture: a conversion request whose currency field carries the numeric
exchange rate 2. -/
def wConvReq : TxnReq :=
  { account_id := some 1
    to_account_id := some 2
    date := "2026-01-03"
    type := "conversion"
    category := "fx"
    amount := some 10
    currencyTruthy := true
    currencyNum := some 2
    currencyStr := "2"
    description := "" }

/-- Witness for C10: a successful conversion create with rate 2 stores
exchange_rate 2 and converted_amount 20. -/
theorem conversion_rate_stored_witness :
    ∃ t, (createTransaction (fun _ _ => (1 : Rat)) "USD" wConvReq wSt2).1.txns =
        wSt2.txns ++ [t] ∧
      t.exchange_rate = some (match wConvReq.currencyNum with
        | some q => if q = 0 then 1 else q
        | none => 1) ∧
      t.converted_amount = some (numAmount wConvReq * match wConvReq.currencyNum with
        | some q => if q = 0 then 1 else q
        | none => 1) :=
  (conversion_rate_stored (fun _ _ => (1 : Rat)) "USD" 1 wConvReq wSt2 rfl).1 (by
    norm_num +decide [createTransaction, validateTransactionInput, findAccount,
      validateSufficientBalance, mathAbs, numAmount, idTruthy, idVal, debitType,
      createCommit_snd, wConvReq, wSt2, List.find?])

/-! ### Helper lemmas for the invariant proofs -/

theorem idVal_jsIdOrNone (x : Option Nat) : idVal (jsIdOrNone x) = idVal x := by
  unfold jsIdOrNone
  split_ifs with h
  · exact h.symm
  · rfl

theorem idTruthy_jsIdOrNone (x : Option Nat) : idTruthy (jsIdOrNone x) ↔ idTruthy x := by
  unfold idTruthy
  rw [idVal_jsIdOrNone]

theorem jsNumOr_def_ne_zero (x : Option Rat) : jsNumOr x 1 ≠ 0 := by
  unfold jsNumOr
  split_ifs with h
  · norm_num
  · exact h

/-- Soft-delete markers do not enter the effect computation. -/
theorem effectDeltas_markers (t : Txn) (d : Option String) (dr : Option String) :
    effectDeltas { t with deleted_at := d, deleted_reason := dr } = effectDeltas t := rfl

theorem reverseDeltas_markers (t : Txn) (d : Option String) (dr : Option String) :
    reverseDeltas { t with deleted_at := d, deleted_reason := dr } = reverseDeltas t := rfl

theorem updateTxn_ids (tid : Nat) (new : Txn) (s : St) (hid : new.id = tid) :
    (updateTxn tid new s).txns.map Txn.id = s.txns.map Txn.id := by
  unfold updateTxn
  rw [List.map_map]
  refine List.map_congr_left ?_
  intro u _
  by_cases h : u.id = tid
  · simp [h, hid]
  · simp [h]

theorem updateBalance_account_ids (aid : Nat) (d : Rat) (s : St) :
    (updateBalance aid d s).accounts.map Account.id = s.accounts.map Account.id := by
  unfold updateBalance
  rw [List.map_map]
  refine List.map_congr_left ?_
  intro a _
  by_cases h : a.id = aid
  · simp [h]
  · simp [h]

theorem applyDeltas_account_ids (ds : List (Nat × Rat)) (s : St) :
    (applyDeltas ds s).accounts.map Account.id = s.accounts.map Account.id := by
  rw [applyDeltas_accounts, List.map_map]
  refine List.map_congr_left ?_
  intro a _
  rfl

/-- Replacing the rows with a given id changes the net active contribution
by removing the found row and adding the replacement (transaction ids
distinct). -/
theorem sum_contrib_replace (l : List Txn) (tid : Nat) (t0 new : Txn) (aid : Nat)
    (hmem : t0 ∈ l) (hid : t0.id = tid) (hnodup : (l.map Txn.id).Nodup) :
    (((l.map fun u => if u.id = tid then new else u).map fun t => txContrib t aid)).sum =
      ((l.map fun t => txContrib t aid)).sum - txContrib t0 aid + txContrib new aid := by
  induction l with
  | nil => cases hmem
  | cons a l ih =>
    rw [List.map_cons] at hnodup
    have hnd := List.nodup_cons.mp hnodup
    rcases List.mem_cons.mp hmem with rfl | hmem2
    · rw [List.map_cons, List.map_cons, List.map_cons, List.sum_cons, List.sum_cons,
        if_pos hid]
      have hrest : l.map (fun u => if u.id = tid then new else u) = l := by
        have : ∀ u ∈ l, (if u.id = tid then new else u) = u := by
          intro u hu
          have hne : ¬ u.id = tid := by
            intro hu2
            exact hnd.1 (by rw [hid, ← hu2]; exact List.mem_map_of_mem _ hu)
          rw [if_neg hne]
        calc l.map (fun u => if u.id = tid then new else u)
            = l.map id := List.map_congr_left (by intro u hu; rw [this u hu]; rfl)
          _ = l := List.map_id _
      rw [hrest]
      ring
    · have hane : ¬ a.id = tid := by
        intro ha
        exact hnd.1 (by rw [ha, ← hid]; exact List.mem_map_of_mem _ hmem2)
      rw [List.map_cons, List.map_cons, List.map_cons, List.sum_cons, List.sum_cons,
        if_neg hane, ih hmem2 hnd.2]
      ring

/-- Scanning the id-replaced list for a predicate that only matches the
given id finds the replacement row. -/
theorem find?_map_ite (l : List Txn) (tid : Nat) (new t0 : Txn) (p : Txn → Bool)
    (hmem : t0 ∈ l) (hid : t0.id = tid)
    (hp : p new = true) (hnp : ∀ u, ¬ u.id = tid → p u = false) :
    (l.map fun u => if u.id = tid then new else u).find? p = some new := by
  induction l with
  | nil => cases hmem
  | cons a l ih =>
    rw [List.map_cons]
    by_cases ha : a.id = tid
    · rw [if_pos ha]
      simp [List.find?, hp]
    · rw [if_neg ha]
      have hskip : p a = false := hnp a ha
      have ht0 : t0 ∈ l := by
        rcases List.mem_cons.mp hmem with rfl | h2
        · exact absurd hid ha
        · exact h2
      simp [List.find?, hskip, ih ht0]

/-- With distinct account ids, the found account is the only one with its id. -/
theorem findAccount_unique {s : St} {aid : Nat} {acct : Account}
    (hnodup : (s.accounts.map Account.id).Nodup)
    (hfind : findAccount s aid = some acct) :
    ∀ a ∈ s.accounts, a.id = aid → a = acct := by
  obtain ⟨hmem, hidc⟩ := findAccount_inv hfind
  intro a ha haid
  exact List.inj_on_of_nodup_map hnodup ha hmem (by rw [haid, hidc])

/-- For a conversion request the stored converted amount is nonzero unless
the amount itself is zero, so `converted_amount || amount` reproduces it. -/
theorem jsNumOr_some_mul (amt e : Rat) (he : e ≠ 0) :
    jsNumOr (some (amt * e)) amt = amt * e := by
  unfold jsNumOr
  simp only [Option.getD_some]
  split_ifs with h
  · rcases mul_eq_zero.mp h with h1 | h2
    · simp [h1]
    · exact absurd h2 he
  · rfl

theorem conv_destAmount_eq (cr : String → String → Rat) (dc : String) (r : TxnReq)
    (hty : r.type = "conversion") :
    jsNumOr (some (convFields cr dc r).2.1) (numAmount r) = (convFields cr dc r).2.1 := by
  rw [convFields_conversion cr dc r hty]
  show jsNumOr (some (numAmount r * jsNumOr r.currencyNum 1)) (numAmount r) =
    numAmount r * jsNumOr r.currencyNum 1
  exact jsNumOr_some_mul _ _ (jsNumOr_def_ne_zero _)

/-- The inline balance updates of the create endpoint apply exactly the
effect of the row it inserted. -/
theorem createBalanceUpdate_eq_effect (cr : String → String → Rat) (dc : String)
    (r : TxnReq) (n : Nat) (s1 : St) :
    createBalanceUpdate cr dc r s1 = applyTransactionEffect (builtTxn cr dc r n) s1 := by
  unfold createBalanceUpdate applyTransactionEffect effectDeltas
  simp only [builtTxn, idTruthy_jsIdOrNone, idVal_jsIdOrNone]
  by_cases h1 : r.type = "income" ∧ idTruthy r.account_id
  · rw [if_pos h1, if_pos h1]
    simp [applyDeltas]
  · rw [if_neg h1, if_neg h1]
    by_cases h2 : r.type = "expense" ∧ idTruthy r.account_id
    · rw [if_pos h2, if_pos h2]
      simp [applyDeltas]
    · rw [if_neg h2, if_neg h2]
      by_cases h3 : (r.type = "transfer" ∨ r.type = "conversion") ∧
          idTruthy r.account_id ∧ idTruthy r.to_account_id
      · rw [if_pos h3, if_pos h3]
        simp only [applyDeltas]
        unfold destAmount
        simp only [builtTxn]
        by_cases hc : r.type = "conversion"
        · rw [if_pos hc, if_pos hc, conv_destAmount_eq cr dc r hc]
        · rw [if_neg hc, if_neg hc]
      · rw [if_neg h3, if_neg h3]
        simp [applyDeltas]

/-! ### Failure leaves the state untouched -/

theorem createTransaction_fail_state (cr : String → String → Rat) (dc : String)
    (r : TxnReq) (s : St) (h : (createTransaction cr dc r s).2 ≠ .success) :
    (createTransaction cr dc r s).1 = s := by
  unfold createTransaction at h ⊢
  split at h
  · rfl
  · next heqv =>
    by_cases hdg : debitType r.type ∧ idTruthy r.account_id
    · rw [if_pos hdg] at h ⊢
      split at h
      · rfl
      · next acct heqa =>
        split at h
        · rfl
        · exact absurd (createCommit_snd cr dc r s) h
    · rw [if_neg hdg] at h
      exact absurd (createCommit_snd cr dc r s) h

theorem editTransaction_fail_state (cr : String → String → Rat) (dc : String)
    (tid : Nat) (r : TxnReq) (s : St)
    (h : (editTransaction cr dc tid r s).2 ≠ .success) :
    (editTransaction cr dc tid r s).1 = s := by
  unfold editTransaction at h ⊢
  split at h
  · rfl
  · next heqv =>
    split at h
    · rfl
    · next ex heqf =>
      by_cases hdg : debitType r.type ∧ idTruthy r.account_id
      · rw [if_pos hdg] at h ⊢
        split at h
        · rfl
        · next acct heqa =>
          split at h
          · rfl
          · exact absurd (editCommit_snd cr dc tid r ex _) h
      · rw [if_neg hdg] at h
        exact absurd (editCommit_snd cr dc tid r ex _) h

theorem deleteTransaction_fail_state (reason now : String) (tid : Nat) (s : St)
    (h : (deleteTransaction reason now tid s).2 ≠ .success) :
    (deleteTransaction reason now tid s).1 = s := by
  unfold deleteTransaction at h ⊢
  split at h
  · rfl
  · exact absurd rfl h

theorem restoreTransaction_fail_state (tid : Nat) (s : St)
    (h : (restoreTransaction tid s).2 ≠ .success) :
    (restoreTransaction tid s).1 = s := by
  unfold restoreTransaction at h ⊢
  split at h
  · rfl
  · next t heq =>
    by_cases hdg : debitType t.type ∧ idTruthy t.account_id
    · rw [if_pos hdg] at h ⊢
      split at h
      · rfl
      · next a heqa =>
        split at h
        · rfl
        · exact absurd (restoreCommit_snd tid t s) h
    · rw [if_neg hdg] at h
      exact absurd (restoreCommit_snd tid t s) h

/-- A successful create of a debit-type transaction passed the balance
pre-check against the stored source account. -/
theorem createTransaction_success_check (cr : String → String → Rat) (dc : String)
    (r : TxnReq) (s : St) (h : (createTransaction cr dc r s).2 = .success)
    (hdg : debitType r.type ∧ idTruthy r.account_id) :
    ∃ a, findAccount s (idVal r.account_id) = some a ∧
      validateSufficientBalance a (numAmount r) = .valid := by
  unfold createTransaction at h
  split at h
  · simp at h
  · next heqv =>
    rw [if_pos hdg] at h
    split at h
    · simp at h
    · next a heqa =>
      split at h
      · simp at h
      · next heqb => exact ⟨a, heqa, heqb⟩

/-! ### Reconciliation: per-operation preservation -/

theorem reconciled_shift (init : Nat → Rat) (s s' : St) (d : Nat → Rat)
    (hacc : s'.accounts = s.accounts.map fun a => { a with balance := a.balance + d a.id })
    (hsum : ∀ aid, activeSum s' aid = activeSum s aid + d aid)
    (hrec : reconciled init s) : reconciled init s' := by
  intro a' ha'
  rw [hacc] at ha'
  obtain ⟨a, ha, rfl⟩ := List.mem_map.mp ha'
  show a.balance + d a.id = init a.id + activeSum s' a.id
  rw [hsum a.id, hrec a ha]
  ring

theorem map_balance_comp (l : List Account) (d1 d2 : Nat → Rat) :
    ((l.map fun a => { a with balance := a.balance + d1 a.id }).map
      fun a => { a with balance := a.balance + d2 a.id }) =
      l.map fun a => { a with balance := a.balance + (d1 a.id + d2 a.id) } := by
  rw [List.map_map]
  refine List.map_congr_left ?_
  intro a _
  simp [add_assoc]

/-- A successful create commits the inserted row and its effect. -/
theorem createTransaction_success_state (cr : String → String → Rat) (dc : String)
    (r : TxnReq) (s : St) (h : (createTransaction cr dc r s).2 = .success) :
    (createTransaction cr dc r s).1 =
      applyTransactionEffect (builtTxn cr dc r s.nextTxnId)
        { s with txns := s.txns ++ [builtTxn cr dc r s.nextTxnId],
                 nextTxnId := s.nextTxnId + 1 } := by
  obtain ⟨-, heq⟩ := createTransaction_success_eq cr dc r s h
  rw [heq]
  show createBalanceUpdate cr dc r _ = _
  exact createBalanceUpdate_eq_effect cr dc r s.nextTxnId _

theorem editCommit_fst (cr : String → String → Rat) (dc : String) (tid : Nat)
    (r : TxnReq) (ex : Txn) (s1 : St) :
    (editCommit cr dc tid r ex s1).1 =
      recordTransactionHistory (editedTxn cr dc r ex) "edit"
        (applyTransactionEffect (editedTxn cr dc r ex)
          (updateTxn tid (editedTxn cr dc r ex) s1)) := rfl

theorem restoreCommit_fst (tid : Nat) (t : Txn) (s : St) :
    (restoreCommit tid t s).1 =
      recordTransactionHistory t "restore"
        (updateTxn tid { t with deleted_at := none, deleted_reason := none }
          (applyTransactionEffect t s)) := rfl

theorem reconciled_create (cr : String → String → Rat) (dc : String) (r : TxnReq)
    (s : St) (init : Nat → Rat) (h : (createTransaction cr dc r s).2 = .success)
    (hrec : reconciled init s) :
    reconciled init (createTransaction cr dc r s).1 := by
  rw [createTransaction_success_state cr dc r s h]
  set newTx := builtTxn cr dc r s.nextTxnId with hnew
  refine reconciled_shift init s _ (fun aid => deltaSum (effectDeltas newTx) aid) ?_ ?_ hrec
  · rw [applyTransactionEffect, applyDeltas_accounts]
  · intro aid
    unfold activeSum
    rw [applyTransactionEffect, applyDeltas_txns]
    show ((s.txns ++ [newTx]).map fun t => txContrib t aid).sum = _
    rw [List.map_append, List.sum_append]
    have hact : txContrib newTx aid = deltaSum (effectDeltas newTx) aid := by
      unfold txContrib
      rw [if_pos (show newTx.deleted_at = none from rfl)]
    simp [hact]

theorem reconciled_edit (cr : String → String → Rat) (dc : String) (tid : Nat)
    (r : TxnReq) (s : St) (init : Nat → Rat)
    (hwf : WF s) (h : (editTransaction cr dc tid r s).2 = .success)
    (hrec : reconciled init s) :
    reconciled init (editTransaction cr dc tid r s).1 := by
  obtain ⟨-, ex, hex, heq⟩ := editTransaction_success_eq cr dc tid r s h
  obtain ⟨hmem, hid, hact⟩ := findActiveTxn_inv hex
  rw [heq, editCommit_fst]
  set newTx := editedTxn cr dc r ex with hnew
  refine reconciled_shift init s _
    (fun aid => deltaSum (reverseDeltas ex) aid + deltaSum (effectDeltas newTx) aid)
    ?_ ?_ hrec
  · rw [recordTransactionHistory_accounts, applyTransactionEffect, applyDeltas_accounts,
      updateTxn_accounts, reverseTransactionEffect, applyDeltas_accounts, map_balance_comp]
  · intro aid
    unfold activeSum
    rw [recordTransactionHistory_txns, applyTransactionEffect, applyDeltas_txns]
    show (((updateTxn tid newTx (reverseTransactionEffect ex s)).txns.map
      fun t => txContrib t aid)).sum = _
    rw [updateTxn, reverseTransactionEffect]
    show (((applyDeltas (reverseDeltas ex) s).txns.map
        fun u => if u.id = tid then newTx else u).map fun t => txContrib t aid).sum = _
    rw [applyDeltas_txns]
    rw [sum_contrib_replace s.txns tid ex newTx aid hmem hid hwf.1]
    have h1 : txContrib ex aid = deltaSum (effectDeltas ex) aid := by
      unfold txContrib; rw [if_pos hact]
    have h2 : txContrib newTx aid = deltaSum (effectDeltas newTx) aid := by
      unfold txContrib
      rw [if_pos (show newTx.deleted_at = none from hact)]
    rw [h1, h2]
    beta_reduce
    rw [deltaSum_reverseDeltas]
    ring

theorem reconciled_delete (reason now : String) (tid : Nat) (s : St) (init : Nat → Rat)
    (hwf : WF s) (h : (deleteTransaction reason now tid s).2 = .success)
    (hrec : reconciled init s) :
    reconciled init (deleteTransaction reason now tid s).1 := by
  obtain ⟨t, hfind⟩ := deleteTransaction_success_find reason now tid s h
  obtain ⟨hmem, hid, hact⟩ := findActiveTxn_inv hfind
  rw [deleteTransaction_eq reason now tid t s hfind]
  show reconciled init (deleteCommit reason now tid t s)
  refine reconciled_shift init s _ (fun aid => deltaSum (reverseDeltas t) aid) ?_ ?_ hrec
  · unfold deleteCommit
    rw [recordTransactionHistory_accounts, updateTxn_accounts,
      reverseTransactionEffect, applyDeltas_accounts]
  · intro aid
    unfold activeSum deleteCommit
    rw [recordTransactionHistory_txns]
    rw [updateTxn, reverseTransactionEffect]
    show (((applyDeltas (reverseDeltas t) s).txns.map
        fun u => if u.id = tid then _ else u).map fun u => txContrib u aid).sum = _
    rw [applyDeltas_txns]
    rw [sum_contrib_replace s.txns tid t _ aid hmem hid hwf.1]
    have h1 : txContrib t aid = deltaSum (effectDeltas t) aid := by
      unfold txContrib; rw [if_pos hact]
    have h2 : txContrib
        { t with deleted_at := some now,
                 deleted_reason := some (jsStrOr reason "User deleted") } aid = 0 := by
      unfold txContrib
      rw [if_neg (by simp)]
    rw [h1, h2]
    beta_reduce
    rw [deltaSum_reverseDeltas]
    ring

theorem reconciled_restore (tid : Nat) (s : St) (init : Nat → Rat)
    (hwf : WF s) (h : (restoreTransaction tid s).2 = .success)
    (hrec : reconciled init s) :
    reconciled init (restoreTransaction tid s).1 := by
  obtain ⟨t, hfind, -, heq⟩ := restoreTransaction_success_inv tid s h
  obtain ⟨hmem, hid, hdel⟩ := findDeletedTxn_inv hfind
  rw [heq, restoreCommit_fst]
  refine reconciled_shift init s _ (fun aid => deltaSum (effectDeltas t) aid) ?_ ?_ hrec
  · rw [recordTransactionHistory_accounts, updateTxn_accounts,
      applyTransactionEffect, applyDeltas_accounts]
  · intro aid
    unfold activeSum
    rw [recordTransactionHistory_txns]
    rw [updateTxn, applyTransactionEffect]
    show (((applyDeltas (effectDeltas t) s).txns.map
        fun u => if u.id = tid then _ else u).map fun u => txContrib u aid).sum = _
    rw [applyDeltas_txns]
    rw [sum_contrib_replace s.txns tid t _ aid hmem hid hwf.1]
    have h1 : txContrib t aid = 0 := by
      unfold txContrib; rw [if_neg hdel]
    have h2 : txContrib { t with deleted_at := none, deleted_reason := none } aid =
        deltaSum (effectDeltas t) aid := by
      unfold txContrib
      rw [if_pos rfl, effectDeltas_markers]
    rw [h1, h2]
    beta_reduce
    ring

/-! ### Well-formedness is preserved by every operation -/

theorem bound_of_ids_eq {l l' : List Txn} (h : l'.map Txn.id = l.map Txn.id) (n : Nat)
    (hb : ∀ t ∈ l, t.id < n) : ∀ t ∈ l', t.id < n := by
  intro t ht
  have hmm : t.id ∈ l.map Txn.id := h ▸ List.mem_map_of_mem _ ht
  obtain ⟨u, hu, heq⟩ := List.mem_map.mp hmm
  exact heq ▸ hb u hu

theorem createBalanceUpdate_account_ids (cr : String → String → Rat) (dc : String)
    (r : TxnReq) (s1 : St) :
    (createBalanceUpdate cr dc r s1).accounts.map Account.id =
      s1.accounts.map Account.id := by
  unfold createBalanceUpdate
  split_ifs <;> simp [updateBalance_account_ids]

theorem editCommit_nextTxnId (cr : String → String → Rat) (dc : String) (tid : Nat)
    (r : TxnReq) (ex : Txn) (s1 : St) :
    (editCommit cr dc tid r ex s1).1.nextTxnId = s1.nextTxnId := by
  rw [editCommit_fst, recordTransactionHistory_nextTxnId, applyTransactionEffect,
    applyDeltas_nextTxnId, updateTxn_nextTxnId]

theorem WF_step (cr : String → String → Rat) (dc : String) (s : St) (op : Op)
    (hwf : WF s) : WF (step cr dc s op).1 := by
  obtain ⟨hnd, hlt, hand⟩ := hwf
  cases op with
  | create r =>
    show WF (createTransaction cr dc r s).1
    by_cases hs : (createTransaction cr dc r s).2 = .success
    · rw [createTransaction_success_state cr dc r s hs]
      refine ⟨?_, ?_, ?_⟩
      · rw [applyTransactionEffect, applyDeltas_txns]
        show ((s.txns ++ [builtTxn cr dc r s.nextTxnId]).map Txn.id).Nodup
        rw [List.map_append, List.nodup_append]
        refine ⟨hnd, by simp, ?_⟩
        intro x hx hy
        simp only [List.map_cons, List.map_nil, List.mem_singleton] at hy
        obtain ⟨u, hu, rfl⟩ := List.mem_map.mp hx
        have hb := hlt u hu
        have : u.id = s.nextTxnId := hy
        omega
      · intro t ht
        rw [applyTransactionEffect, applyDeltas_txns] at ht
        rw [applyTransactionEffect, applyDeltas_nextTxnId]
        show t.id < s.nextTxnId + 1
        rcases List.mem_append.mp ht with h1 | h2
        · exact Nat.lt_trans (hlt t h1) (Nat.lt_succ_self _)
        · rw [List.mem_singleton] at h2
          rw [h2]
          exact Nat.lt_succ_self _
      · rw [applyTransactionEffect, applyDeltas_account_ids]
        exact hand
    · rw [createTransaction_fail_state cr dc r s hs]
      exact ⟨hnd, hlt, hand⟩
  | edit tid r =>
    show WF (editTransaction cr dc tid r s).1
    by_cases hs : (editTransaction cr dc tid r s).2 = .success
    · obtain ⟨-, ex, hex, heq⟩ := editTransaction_success_eq cr dc tid r s hs
      obtain ⟨hmem, hid, -⟩ := findActiveTxn_inv hex
      rw [heq, editCommit_fst]
      have hids : (recordTransactionHistory (editedTxn cr dc r ex) "edit"
          (applyTransactionEffect (editedTxn cr dc r ex)
            (updateTxn tid (editedTxn cr dc r ex)
              (reverseTransactionEffect ex s)))).txns.map Txn.id =
          s.txns.map Txn.id := by
        rw [recordTransactionHistory_txns, applyTransactionEffect, applyDeltas_txns,
          updateTxn_ids tid _ _ (show (editedTxn cr dc r ex).id = tid from hid),
          reverseTransactionEffect, applyDeltas_txns]
      refine ⟨hids ▸ hnd, ?_, ?_⟩
      · have hb := bound_of_ids_eq hids s.nextTxnId hlt
        intro t ht
        rw [recordTransactionHistory_nextTxnId, applyTransactionEffect,
          applyDeltas_nextTxnId, updateTxn_nextTxnId, reverseTransactionEffect,
          applyDeltas_nextTxnId]
        exact hb t ht
      · rw [recordTransactionHistory_accounts, applyTransactionEffect,
          applyDeltas_account_ids, updateTxn_accounts, reverseTransactionEffect,
          applyDeltas_account_ids]
        exact hand
    · rw [editTransaction_fail_state cr dc tid r s hs]
      exact ⟨hnd, hlt, hand⟩
  | delete tid reason now =>
    show WF (deleteTransaction reason now tid s).1
    by_cases hs : (deleteTransaction reason now tid s).2 = .success
    · obtain ⟨t, hfind⟩ := deleteTransaction_success_find reason now tid s hs
      obtain ⟨hmem, hid, -⟩ := findActiveTxn_inv hfind
      rw [deleteTransaction_eq reason now tid t s hfind]
      show WF (deleteCommit reason now tid t s)
      have hids : (deleteCommit reason now tid t s).txns.map Txn.id =
          s.txns.map Txn.id := by
        unfold deleteCommit
        rw [recordTransactionHistory_txns,
          updateTxn_ids tid
            { t with deleted_at := some now,
                     deleted_reason := some (jsStrOr reason "User deleted") } _ hid,
          reverseTransactionEffect, applyDeltas_txns]
      refine ⟨hids ▸ hnd, ?_, ?_⟩
      · have hnext : (deleteCommit reason now tid t s).nextTxnId = s.nextTxnId := by
          unfold deleteCommit
          rw [recordTransactionHistory_nextTxnId, updateTxn_nextTxnId,
            reverseTransactionEffect, applyDeltas_nextTxnId]
        rw [hnext]
        exact bound_of_ids_eq hids s.nextTxnId hlt
      · unfold deleteCommit
        rw [recordTransactionHistory_accounts, updateTxn_accounts,
          reverseTransactionEffect, applyDeltas_account_ids]
        exact hand
    · rw [deleteTransaction_fail_state reason now tid s hs]
      exact ⟨hnd, hlt, hand⟩
  | restore tid =>
    show WF (restoreTransaction tid s).1
    by_cases hs : (restoreTransaction tid s).2 = .success
    · obtain ⟨t, hfind, -, heq⟩ := restoreTransaction_success_inv tid s hs
      obtain ⟨hmem, hid, -⟩ := findDeletedTxn_inv hfind
      rw [heq, restoreCommit_fst]
      have hids : (recordTransactionHistory t "restore"
          (updateTxn tid { t with deleted_at := none, deleted_reason := none }
            (applyTransactionEffect t s))).txns.map Txn.id = s.txns.map Txn.id := by
        rw [recordTransactionHistory_txns,
          updateTxn_ids tid { t with deleted_at := none, deleted_reason := none } _ hid,
          applyTransactionEffect, applyDeltas_txns]
      refine ⟨hids ▸ hnd, ?_, ?_⟩
      · intro t2 ht2
        rw [recordTransactionHistory_nextTxnId, updateTxn_nextTxnId,
          applyTransactionEffect, applyDeltas_nextTxnId]
        exact bound_of_ids_eq hids s.nextTxnId hlt t2 ht2
      · rw [recordTransactionHistory_accounts, updateTxn_accounts,
          applyTransactionEffect, applyDeltas_account_ids]
        exact hand
    · rw [restoreTransaction_fail_state tid s hs]
      exact ⟨hnd, hlt, hand⟩

theorem reconciled_step (cr : String → String → Rat) (dc : String) (s : St) (op : Op)
    (init : Nat → Rat) (hwf : WF s) (hrec : reconciled init s) :
    reconciled init (step cr dc s op).1 := by
  cases op with
  | create r =>
    by_cases hs : (createTransaction cr dc r s).2 = .success
    · exact reconciled_create cr dc r s init hs hrec
    · show reconciled init (createTransaction cr dc r s).1
      rw [createTransaction_fail_state cr dc r s hs]
      exact hrec
  | edit tid r =>
    by_cases hs : (editTransaction cr dc tid r s).2 = .success
    · exact reconciled_edit cr dc tid r s init hwf hs hrec
    · show reconciled init (editTransaction cr dc tid r s).1
      rw [editTransaction_fail_state cr dc tid r s hs]
      exact hrec
  | delete tid reason now =>
    by_cases hs : (deleteTransaction reason now tid s).2 = .success
    · exact reconciled_delete reason now tid s init hwf hs hrec
    · show reconciled init (deleteTransaction reason now tid s).1
      rw [deleteTransaction_fail_state reason now tid s hs]
      exact hrec
  | restore tid =>
    by_cases hs : (restoreTransaction tid s).2 = .success
    · exact reconciled_restore tid s init hwf hs hrec
    · show reconciled init (restoreTransaction tid s).1
      rw [restoreTransaction_fail_state tid s hs]
      exact hrec

/-! ### Claim C2: the reconciliation invariant -/

/-- C2: after every sequence of create/edit/delete/restore operations
(successful or rejected), every account A satisfies
`A.balance = init A.id + Σ effectOf(t)` over all stored transactions with
`deleted_at = null` referencing A, where each effect is computed from the
stored descriptor fields (`effectDeltas`) and `init` gives each account
balance at the start of the sequence.  The store is required to be
well-formed (distinct row ids, as the database PRIMARY KEY guarantees).
Every prefix of `ops` is itself such a sequence, so the invariant holds
after every operation. -/
theorem reconciliation_invariant (cr : String → String → Rat) (dc : String)
    (init : Nat → Rat) (s0 : St) (ops : List Op)
    (hwf : WF s0) (hrec : reconciled init s0) :
    reconciled init (runOps cr dc s0 ops) := by
  induction ops generalizing s0 with
  | nil => exact hrec
  | cons op rest ih =>
    exact ih (step cr dc s0 op).1 (WF_step cr dc s0 op hwf)
      (reconciled_step cr dc s0 op init hwf hrec)

/-- Fixture: an income request crediting account 1 with 100. -/
def wIncomeReq : TxnReq :=
  { account_id := some 1
    to_account_id := none
    date := "2026-01-04"
    type := "income"
    category := "pay"
    amount := some 100
    currencyTruthy := false
    currencyNum := none
    currencyStr := ""
    description := "" }

/-- Witness for C2 on a concrete two-operation run. -/
theorem reconciliation_invariant_witness :
    WF wSt2 ∧
    reconciled (fun aid => if aid = 1 then (100 : Rat) else 0) wSt2 ∧
    reconciled (fun aid => if aid = 1 then (100 : Rat) else 0)
      (runOps (fun _ _ => (1 : Rat)) "USD" wSt2
        [Op.create wIncomeReq, Op.delete 1 "dup" "2026-01-05"]) := by
  have hwf : WF wSt2 := by decide
  have hrec : reconciled (fun aid => if aid = 1 then (100 : Rat) else 0) wSt2 := by
    norm_num [reconciled, wSt2, activeSum, txContrib]
  exact ⟨hwf, hrec,
    reconciliation_invariant (fun _ _ => (1 : Rat)) "USD" _ wSt2
      [Op.create wIncomeReq, Op.delete 1 "dup" "2026-01-05"] hwf hrec⟩

/-! ### Claim C7: delete followed by restore is the identity -/

/-- C7: for an active transaction `t`, deleting it and immediately
restoring it (no other mutation in between, restore validation
succeeding) yields a stored row with the same effect-descriptor fields,
with `deleted_at` and `deleted_reason` null again, and every account
balance equal to its value before the delete. -/
theorem delete_restore_roundtrip (reason now : String) (tid : Nat) (s : St) (t : Txn)
    (hfind : findActiveTxn s tid = some t)
    (hsuc : (restoreTransaction tid (deleteTransaction reason now tid s).1).2 = .success) :
    (deleteTransaction reason now tid s).2 = .success ∧
    (restoreTransaction tid (deleteTransaction reason now tid s).1).1.accounts =
      s.accounts ∧
    ∃ t2, findTxn (restoreTransaction tid (deleteTransaction reason now tid s).1).1 tid =
        some t2 ∧
      t2.account_id = t.account_id ∧ t2.to_account_id = t.to_account_id ∧
      t2.type = t.type ∧ t2.amount = t.amount ∧ t2.currency = t.currency ∧
      t2.converted_amount = t.converted_amount ∧ t2.exchange_rate = t.exchange_rate ∧
      t2.date = t.date ∧ t2.category = t.category ∧ t2.description = t.description ∧
      t2.deleted_at = none ∧ t2.deleted_reason = none := by
  obtain ⟨hmem, hid, -⟩ := findActiveTxn_inv hfind
  have hdel := deleteTransaction_eq reason now tid t s hfind
  have hs1 : (deleteTransaction reason now tid s).1 = deleteCommit reason now tid t s := by
    rw [hdel]
  rw [hs1] at hsuc ⊢
  set tDel : Txn :=
    { t with deleted_at := some now,
             deleted_reason := some (jsStrOr reason "User deleted") } with htDel
  set tRes : Txn := { tDel with deleted_at := none, deleted_reason := none } with htRes
  have htxns1 : (deleteCommit reason now tid t s).txns =
      s.txns.map fun u => if u.id = tid then tDel else u := by
    unfold deleteCommit
    rw [recordTransactionHistory_txns]
    show ((reverseTransactionEffect t s).txns.map _) = _
    rw [reverseTransactionEffect, applyDeltas_txns]
  have hfd : findDeletedTxn (deleteCommit reason now tid t s) tid = some tDel := by
    unfold findDeletedTxn
    rw [htxns1]
    refine find?_map_ite s.txns tid tDel t _ hmem hid ?_ ?_
    · simp [htDel, hid]
    · intro u hu
      simp [hu]
  obtain ⟨t', hfind', hok, heqr⟩ := restoreTransaction_success_inv tid _ hsuc
  have ht' : t' = tDel := by
    rw [hfd] at hfind'
    exact (Option.some.inj hfind').symm
  subst ht'
  rw [heqr, restoreCommit_fst]
  have hacc1 : (deleteCommit reason now tid t s).accounts =
      s.accounts.map fun a =>
        { a with balance := a.balance + deltaSum (reverseDeltas t) a.id } := by
    unfold deleteCommit
    rw [recordTransactionHistory_accounts, updateTxn_accounts,
      reverseTransactionEffect, applyDeltas_accounts]
  have heff : effectDeltas tDel = effectDeltas t := effectDeltas_markers t _ _
  refine ⟨by rw [hdel], ?_, ?_⟩
  · rw [recordTransactionHistory_accounts, updateTxn_accounts,
      applyTransactionEffect, applyDeltas_accounts, hacc1, map_balance_comp]
    have hz : ∀ aid, deltaSum (reverseDeltas t) aid + deltaSum (effectDeltas tDel) aid = 0 := by
      intro aid
      rw [heff, deltaSum_reverseDeltas]
      ring
    calc s.accounts.map (fun a =>
          { a with balance := a.balance +
              (deltaSum (reverseDeltas t) a.id + deltaSum (effectDeltas tDel) a.id) })
        = s.accounts.map id := by
          refine List.map_congr_left ?_
          intro a _
          rw [hz a.id]
          rcases a with ⟨i, b⟩
          simp
      _ = s.accounts := List.map_id _
  · refine ⟨tRes, ?_, rfl, rfl, rfl, rfl, rfl, rfl, rfl, rfl, rfl, rfl, rfl, rfl⟩
    unfold findTxn
    rw [recordTransactionHistory_txns]
    show (((applyTransactionEffect tDel (deleteCommit reason now tid t s)).txns.map
      fun u => if u.id = tid then tRes else u).find? _) = _
    rw [applyTransactionEffect, applyDeltas_txns, htxns1, List.map_map]
    have hcomp : s.txns.map ((fun u => if u.id = tid then tRes else u) ∘
        fun u => if u.id = tid then tDel else u) =
        s.txns.map fun u => if u.id = tid then tRes else u := by
      refine List.map_congr_left ?_
      intro u _
      by_cases hu : u.id = tid
      · simp only [Function.comp_apply, if_pos hu]
        rw [if_pos (show tDel.id = tid from hid)]
      · simp only [Function.comp_apply, if_neg hu]
    rw [hcomp]
    refine find?_map_ite s.txns tid tRes t _ hmem hid ?_ ?_
    · simp [htRes, hid]
    · intro u hu
      simp [hu]

/-- Witness for C7: deleting and restoring the zero-amount expense leaves
balances and descriptor fields as before. -/
theorem delete_restore_roundtrip_witness :
    (deleteTransaction "" "2026-01-06" 1 wSt).2 = .success ∧
    (restoreTransaction 1 (deleteTransaction "" "2026-01-06" 1 wSt).1).1.accounts =
      wSt.accounts ∧
    ∃ t2, findTxn (restoreTransaction 1 (deleteTransaction "" "2026-01-06" 1 wSt).1).1 1 =
        some t2 ∧
      t2.account_id = wExpenseTx.account_id ∧
      t2.to_account_id = wExpenseTx.to_account_id ∧
      t2.type = wExpenseTx.type ∧ t2.amount = wExpenseTx.amount ∧
      t2.currency = wExpenseTx.currency ∧
      t2.converted_amount = wExpenseTx.converted_amount ∧
      t2.exchange_rate = wExpenseTx.exchange_rate ∧
      t2.date = wExpenseTx.date ∧ t2.category = wExpenseTx.category ∧
      t2.description = wExpenseTx.description ∧
      t2.deleted_at = none ∧ t2.deleted_reason = none :=
  delete_restore_roundtrip "" "2026-01-06" 1 wSt wExpenseTx
    (by norm_num +decide [findActiveTxn, wSt, wExpenseTx, List.find?])
    (by norm_num +decide [restoreTransaction, deleteTransaction, findActiveTxn,
      findDeletedTxn, findAccount, reverseTransactionEffect, applyTransactionEffect,
      applyDeltas, reverseDeltas, effectDeltas, destAmount, updateBalance, updateTxn,
      recordTransactionHistory, histRowOf, validateSufficientBalance, mathAbs,
      debitType, idTruthy, idVal, jsNumOr, jsStrOr, wSt, wExpenseTx, List.find?,
      restoreCommit_snd])

/-! ### Claim C8: audit trail -/

/-- How a history row relates to the transaction row it snapshots: every
descriptor field is recorded, with the falsy-value normalizations of
`recordTransactionHistory` (a 0 or null `converted_amount`/`exchange_rate`
is recorded as null, a falsy account reference as null, a falsy currency
as USD). -/
def snapMatch (row : HistRow) (t : Txn) (action : String) : Prop :=
  row.action = action ∧ row.transaction_id = t.id ∧
  row.account_id = jsIdOrNone t.account_id ∧
  row.to_account_id = jsIdOrNone t.to_account_id ∧
  row.date = t.date ∧ row.type = t.type ∧ row.category = t.category ∧
  row.amount = t.amount ∧ row.currency = jsStrOr t.currency "USD" ∧
  row.converted_amount = jsNumOrNone t.converted_amount ∧
  row.exchange_rate = jsNumOrNone t.exchange_rate ∧
  row.description = t.description

theorem snapMatch_histRowOf (t : Txn) (action : String) :
    snapMatch (histRowOf t action) t action := by
  refine ⟨rfl, rfl, rfl, rfl, rfl, rfl, rfl, rfl, rfl, rfl, rfl, rfl⟩

theorem editCommit_history (cr : String → String → Rat) (dc : String) (tid : Nat)
    (r : TxnReq) (ex : Txn) (s1 : St) :
    (editCommit cr dc tid r ex s1).1.history =
      s1.history ++ [histRowOf (editedTxn cr dc r ex) "edit"] := by
  rw [editCommit_fst, recordTransactionHistory_history, applyTransactionEffect,
    applyDeltas_history, updateTxn_history]

/-- C8 (amended): every successful edit/delete/restore appends exactly one
history row, tagged with the correct action; its snapshot records the
transaction used for that action's effect computation (the new stored row
for edit, the stored pre-action row for delete and restore) up to the
falsy-value normalizations of `snapMatch`.  A rejected or NotFound call
appends nothing. -/
theorem audit_trail (cr : String → String → Rat) (dc : String) (tid : Nat)
    (r : TxnReq) (reason now : String) (s : St) :
    ((editTransaction cr dc tid r s).2 = .success →
      ∃ row t2, findTxn (editTransaction cr dc tid r s).1 tid = some t2 ∧
        (editTransaction cr dc tid r s).1.history = s.history ++ [row] ∧
        snapMatch row t2 "edit") ∧
    ((editTransaction cr dc tid r s).2 ≠ .success →
      (editTransaction cr dc tid r s).1.history = s.history) ∧
    ((deleteTransaction reason now tid s).2 = .success →
      ∃ row t0, findActiveTxn s tid = some t0 ∧
        (deleteTransaction reason now tid s).1.history = s.history ++ [row] ∧
        snapMatch row t0 "delete") ∧
    ((deleteTransaction reason now tid s).2 ≠ .success →
      (deleteTransaction reason now tid s).1.history = s.history) ∧
    ((restoreTransaction tid s).2 = .success →
      ∃ row t0, findDeletedTxn s tid = some t0 ∧
        (restoreTransaction tid s).1.history = s.history ++ [row] ∧
        snapMatch row t0 "restore") ∧
    ((restoreTransaction tid s).2 ≠ .success →
      (restoreTransaction tid s).1.history = s.history) := by
  refine ⟨?_, ?_, ?_, ?_, ?_, ?_⟩
  · intro hs
    obtain ⟨-, ex, hex, heq⟩ := editTransaction_success_eq cr dc tid r s hs
    obtain ⟨hmem, hid, -⟩ := findActiveTxn_inv hex
    refine ⟨histRowOf (editedTxn cr dc r ex) "edit", editedTxn cr dc r ex, ?_, ?_, ?_⟩
    · rw [heq]
      unfold findTxn
      rw [editCommit_txns]
      have hm : (reverseTransactionEffect ex s).txns = s.txns := by
        rw [reverseTransactionEffect, applyDeltas_txns]
      rw [hm]
      refine find?_map_ite s.txns tid (editedTxn cr dc r ex) ex _ hmem hid ?_ ?_
      · simp [editedTxn, hid]
      · intro u hu
        simp [hu]
    · rw [heq, editCommit_history, reverseTransactionEffect, applyDeltas_history]
    · exact snapMatch_histRowOf _ _
  · intro hs
    rw [editTransaction_fail_state cr dc tid r s hs]
  · intro hs
    obtain ⟨t0, hfind⟩ := deleteTransaction_success_find reason now tid s hs
    refine ⟨histRowOf t0 "delete", t0, hfind, ?_, snapMatch_histRowOf _ _⟩
    rw [deleteTransaction_eq reason now tid t0 s hfind]
    show (deleteCommit reason now tid t0 s).history = _
    unfold deleteCommit
    rw [recordTransactionHistory_history, updateTxn_history,
      reverseTransactionEffect, applyDeltas_history]
  · intro hs
    rw [deleteTransaction_fail_state reason now tid s hs]
  · intro hs
    obtain ⟨t0, hfind, -, heq⟩ := restoreTransaction_success_inv tid s hs
    refine ⟨histRowOf t0 "restore", t0, hfind, ?_, snapMatch_histRowOf _ _⟩
    rw [heq, restoreCommit_fst, recordTransactionHistory_history, updateTxn_history,
      applyTransactionEffect, applyDeltas_history]
  · intro hs
    rw [restoreTransaction_fail_state tid s hs]

/-- Fixture: a conversion request with amount 0 (stored converted_amount 0). -/
def c8ConvReq : TxnReq :=
  { account_id := some 1
    to_account_id := some 2
    date := "2026-01-05"
    type := "conversion"
    category := "fx"
    amount := some 0
    currencyTruthy := true
    currencyNum := some 2
    currencyStr := "2"
    description := "" }

/-- Fixture: the store after creating the zero-amount conversion. -/
def c8s1 : St :=
  (createTransaction (fun _ _ => (1 : Rat)) "USD" c8ConvReq wSt2).1

/-- Counterexample to C8 as stated: deleting the zero-amount conversion
succeeds and appends one history row tagged delete, but the snapshot
records converted_amount as null while the transaction used for the
effect computation stores converted_amount 0 — the snapshot fields do not
equal the transaction state. -/
theorem c8_counterexample :
    (deleteTransaction "" "2026-01-06" 1 c8s1).2 = .success ∧
    (findActiveTxn c8s1 1).map Txn.converted_amount = some (some 0) ∧
    (deleteTransaction "" "2026-01-06" 1 c8s1).1.history.map
      HistRow.converted_amount = [none] ∧
    (deleteTransaction "" "2026-01-06" 1 c8s1).1.history.map
      HistRow.action = ["delete"] := by
  norm_num +decide [deleteTransaction, c8s1, createTransaction, createCommit,
    createBalanceUpdate, builtTxn, convFields, convertCurrency,
    validateTransactionInput, findAccount, findActiveTxn,
    validateSufficientBalance, mathAbs, numAmount, idTruthy, idVal, jsIdOrNone,
    jsNumOr, jsNumOrNone, jsStrOr, debitType, reverseTransactionEffect,
    reverseDeltas, destAmount, applyDeltas, updateBalance, updateTxn,
    recordTransactionHistory, histRowOf, effectDeltas, c8ConvReq, wSt2,
    List.find?]

/-- Witness for the amended C8 at a concrete successful delete. -/
theorem audit_trail_witness :
    ∃ row t0, findActiveTxn wSt 1 = some t0 ∧
      (deleteTransaction "x" "2026-01-07" 1 wSt).1.history = wSt.history ++ [row] ∧
      snapMatch row t0 "delete" :=
  ((audit_trail (fun _ _ => (1 : Rat)) "USD" 1 wEditReq "x" "2026-01-07" wSt).2.2.1)
    (by norm_num +decide [deleteTransaction, findActiveTxn, reverseTransactionEffect,
      reverseDeltas, destAmount, applyDeltas, updateBalance, updateTxn,
      recordTransactionHistory, histRowOf, jsIdOrNone, jsNumOrNone, jsNumOr,
      jsStrOr, idTruthy, idVal, wSt, wExpenseTx, List.find?])

/-! ### Claim C1: the no-negative-balance property -/

theorem valid_inv {a : Account} {x : Rat}
    (h : validateSufficientBalance a x = .valid) : 0 ≤ a.balance - x := by
  simp only [validateSufficientBalance] at h
  split_ifs at h with hlt
  linarith

theorem nonneg_of_accounts_eq {s s' : St} (h : s'.accounts = s.accounts)
    (hn : nonnegBalances s) : nonnegBalances s' := by
  intro a ha
  rw [h] at ha
  exact hn a ha

theorem nonneg_updateBalance_credit (aid : Nat) (d : Rat) (hd : 0 ≤ d) (s : St)
    (h : nonnegBalances s) : nonnegBalances (updateBalance aid d s) := by
  intro a' ha'
  rw [updateBalance] at ha'
  obtain ⟨a, ha, rfl⟩ := List.mem_map.mp ha'
  by_cases hh : a.id = aid
  · rw [if_pos hh]
    exact add_nonneg (h a ha) hd
  · rw [if_neg hh]
    exact h a ha

theorem nonneg_updateBalance_checked (aid : Nat) (x : Rat) (s : St) (acct : Account)
    (hnodup : (s.accounts.map Account.id).Nodup)
    (hfind : findAccount s aid = some acct)
    (hok : 0 ≤ acct.balance - x)
    (h : nonnegBalances s) : nonnegBalances (updateBalance aid (-x) s) := by
  intro a' ha'
  rw [updateBalance] at ha'
  obtain ⟨a, ha, rfl⟩ := List.mem_map.mp ha'
  by_cases hh : a.id = aid
  · rw [if_pos hh]
    rw [findAccount_unique hnodup hfind a ha hh]
    show 0 ≤ acct.balance + -x
    linarith
  · rw [if_neg hh]
    exact h a ha

theorem destAmount_markers (t : Txn) (d dr : Option String) :
    destAmount { t with deleted_at := d, deleted_reason := dr } = destAmount t := rfl

/-- A successful create keeps all balances nonnegative, provided the
conversion rate carried by the request is nonnegative. -/
theorem nonneg_create (cr : String → String → Rat) (dc : String) (r : TxnReq) (s : St)
    (hwf : WF s) (hnn : nonnegBalances s)
    (hs : (createTransaction cr dc r s).2 = .success)
    (hrate : r.type = "conversion" → 0 ≤ jsNumOr r.currencyNum 1) :
    nonnegBalances (createTransaction cr dc r s).1 := by
  obtain ⟨hval, -⟩ := createTransaction_success_eq cr dc r s hs
  obtain ⟨hty4, -, hamt, -, -, hie, htc⟩ := validate_none_inv hval
  rw [createTransaction_success_state cr dc r s hs]
  set s1 : St := { s with txns := s.txns ++ [builtTxn cr dc r s.nextTxnId],
                          nextTxnId := s.nextTxnId + 1 } with hs1
  have hnn1 : nonnegBalances s1 := nonneg_of_accounts_eq rfl hnn
  have hnd1 : (s1.accounts.map Account.id).Nodup := hwf.2.2
  rcases hty4 with hty | hty | hty | hty
  · -- income: single credit
    have htr : idTruthy r.account_id := hie (Or.inl hty)
    have heff : effectDeltas (builtTxn cr dc r s.nextTxnId) =
        [(idVal r.account_id, numAmount r)] := by
      unfold effectDeltas
      simp only [builtTxn]
      rw [if_pos ⟨hty, (idTruthy_jsIdOrNone _).mpr htr⟩, idVal_jsIdOrNone]
    rw [applyTransactionEffect, heff]
    simp only [applyDeltas]
    exact nonneg_updateBalance_credit _ _ hamt s1 hnn1
  · -- expense: single validated debit
    have htr : idTruthy r.account_id := hie (Or.inr hty)
    obtain ⟨acct, hfa, hv⟩ :=
      createTransaction_success_check cr dc r s hs ⟨Or.inl hty, htr⟩
    have heff : effectDeltas (builtTxn cr dc r s.nextTxnId) =
        [(idVal r.account_id, -(numAmount r))] := by
      unfold effectDeltas
      simp only [builtTxn]
      rw [if_neg (fun hc => absurd (hty ▸ hc.1) (by decide)),
        if_pos ⟨hty, (idTruthy_jsIdOrNone _).mpr htr⟩, idVal_jsIdOrNone]
    rw [applyTransactionEffect, heff]
    simp only [applyDeltas]
    exact nonneg_updateBalance_checked _ _ s1 acct hnd1 hfa (valid_inv hv) hnn1
  · -- transfer: validated debit then credit of the same amount
    obtain ⟨hsrc, hdst, -⟩ := htc (Or.inl hty)
    obtain ⟨acct, hfa, hv⟩ :=
      createTransaction_success_check cr dc r s hs ⟨Or.inr (Or.inl hty), hsrc⟩
    have heff : effectDeltas (builtTxn cr dc r s.nextTxnId) =
        [(idVal r.account_id, -(numAmount r)),
         (idVal r.to_account_id, destAmount (builtTxn cr dc r s.nextTxnId))] := by
      unfold effectDeltas
      simp only [builtTxn]
      rw [if_neg (fun hc => absurd (hty ▸ hc.1) (by decide)),
        if_neg (fun hc => absurd (hty ▸ hc.1) (by decide)),
        if_pos ⟨Or.inl hty, (idTruthy_jsIdOrNone _).mpr hsrc,
          (idTruthy_jsIdOrNone _).mpr hdst⟩, idVal_jsIdOrNone, idVal_jsIdOrNone]
    have hdA : destAmount (builtTxn cr dc r s.nextTxnId) = numAmount r := by
      unfold destAmount
      rw [if_neg (fun hc => absurd ((show (builtTxn cr dc r s.nextTxnId).type =
        "transfer" from hty) ▸ hc) (by decide))]
      rfl
    rw [applyTransactionEffect, heff, hdA]
    simp only [applyDeltas]
    exact nonneg_updateBalance_credit _ _ hamt _
      (nonneg_updateBalance_checked _ _ s1 acct hnd1 hfa (valid_inv hv) hnn1)
  · -- conversion: validated debit then nonnegative converted credit
    obtain ⟨hsrc, hdst, -⟩ := htc (Or.inr hty)
    obtain ⟨acct, hfa, hv⟩ :=
      createTransaction_success_check cr dc r s hs ⟨Or.inr (Or.inr hty), hsrc⟩
    have heff : effectDeltas (builtTxn cr dc r s.nextTxnId) =
        [(idVal r.account_id, -(numAmount r)),
         (idVal r.to_account_id, destAmount (builtTxn cr dc r s.nextTxnId))] := by
      unfold effectDeltas
      simp only [builtTxn]
      rw [if_neg (fun hc => absurd (hty ▸ hc.1) (by decide)),
        if_neg (fun hc => absurd (hty ▸ hc.1) (by decide)),
        if_pos ⟨Or.inr hty, (idTruthy_jsIdOrNone _).mpr hsrc,
          (idTruthy_jsIdOrNone _).mpr hdst⟩, idVal_jsIdOrNone, idVal_jsIdOrNone]
    have hdA : destAmount (builtTxn cr dc r s.nextTxnId) =
        numAmount r * jsNumOr r.currencyNum 1 := by
      unfold destAmount
      rw [if_pos (show (builtTxn cr dc r s.nextTxnId).type = "conversion" from hty)]
      show jsNumOr (some (convFields cr dc r).2.1) (numAmount r) = _
      rw [conv_destAmount_eq cr dc r hty, convFields_conversion cr dc r hty]
    rw [applyTransactionEffect, heff, hdA]
    simp only [applyDeltas]
    exact nonneg_updateBalance_credit _ _ (mul_nonneg hamt (hrate hty)) _
      (nonneg_updateBalance_checked _ _ s1 acct hnd1 hfa (valid_inv hv) hnn1)

/-- A successful restore keeps all balances nonnegative: the source debit
is validated and the credits are nonnegative stored amounts. -/
theorem nonneg_restore (tid : Nat) (s : St) (hwf : WF s) (hamts : amountsOk s)
    (hnn : nonnegBalances s) (hs : (restoreTransaction tid s).2 = .success) :
    nonnegBalances (restoreTransaction tid s).1 := by
  obtain ⟨t, hfind, hok, heq⟩ := restoreTransaction_success_inv tid s hs
  obtain ⟨hmem, -, -⟩ := findDeletedTxn_inv hfind
  obtain ⟨hamt, hdest⟩ := hamts t hmem
  rw [heq, restoreCommit_fst]
  apply nonneg_of_accounts_eq (s := applyTransactionEffect t s)
  · rw [recordTransactionHistory_accounts, updateTxn_accounts]
  · rw [applyTransactionEffect]
    unfold effectDeltas
    split_ifs with h1 h2 h3
    · simp only [applyDeltas]
      exact nonneg_updateBalance_credit _ _ hamt s hnn
    · obtain ⟨acct, hfa, hv⟩ := hok ⟨Or.inl h2.1, h2.2⟩
      simp only [applyDeltas]
      exact nonneg_updateBalance_checked _ _ s acct hwf.2.2 hfa (valid_inv hv) hnn
    · have hdt : debitType t.type := by
        rcases h3.1 with h | h
        · exact Or.inr (Or.inl h)
        · exact Or.inr (Or.inr h)
      obtain ⟨acct, hfa, hv⟩ := hok ⟨hdt, h3.2.1⟩
      simp only [applyDeltas]
      exact nonneg_updateBalance_credit _ _ (hdest h3.1) _
        (nonneg_updateBalance_checked _ _ s acct hwf.2.2 hfa (valid_inv hv) hnn)
    · simp only [applyDeltas]
      exact hnn

theorem amountsOk_create (cr : String → String → Rat) (dc : String) (r : TxnReq)
    (s : St) (hs : (createTransaction cr dc r s).2 = .success)
    (hrate : r.type = "conversion" → 0 ≤ jsNumOr r.currencyNum 1)
    (hamts : amountsOk s) : amountsOk (createTransaction cr dc r s).1 := by
  obtain ⟨hval, heq⟩ := createTransaction_success_eq cr dc r s hs
  obtain ⟨-, -, hamt, -⟩ := validate_none_inv hval
  rw [heq]
  intro t ht
  rw [createCommit_txns] at ht
  rcases List.mem_append.mp ht with h1 | h2
  · exact hamts t h1
  · rw [List.mem_singleton] at h2
    subst h2
    refine ⟨hamt, ?_⟩
    intro hty
    rcases hty with hty | hty
    · have hne : ¬ (builtTxn cr dc r s.nextTxnId).type = "conversion" := by
        rw [hty]
        decide
      unfold destAmount
      rw [if_neg hne]
      exact hamt
    · have hty' : r.type = "conversion" := hty
      unfold destAmount
      rw [if_pos (show (builtTxn cr dc r s.nextTxnId).type = "conversion" from hty)]
      show 0 ≤ jsNumOr (some (convFields cr dc r).2.1) (numAmount r)
      rw [conv_destAmount_eq cr dc r hty', convFields_conversion cr dc r hty']
      exact mul_nonneg hamt (hrate hty')

theorem amountsOk_restore (tid : Nat) (s : St)
    (hs : (restoreTransaction tid s).2 = .success)
    (hamts : amountsOk s) : amountsOk (restoreTransaction tid s).1 := by
  obtain ⟨t, hfind, -, heq⟩ := restoreTransaction_success_inv tid s hs
  obtain ⟨hmem, -, -⟩ := findDeletedTxn_inv hfind
  obtain ⟨hamt, hdest⟩ := hamts t hmem
  rw [heq, restoreCommit_fst]
  intro u hu
  rw [recordTransactionHistory_txns] at hu
  have hu2 : u ∈ (applyTransactionEffect t s).txns.map
      fun v => if v.id = tid then
        { t with deleted_at := none, deleted_reason := none } else v := hu
  obtain ⟨v, hv, rfl⟩ := List.mem_map.mp hu2
  rw [applyTransactionEffect, applyDeltas_txns] at hv
  by_cases hvid : v.id = tid
  · rw [if_pos hvid]
    refine ⟨hamt, ?_⟩
    intro hty
    rw [destAmount_markers]
    exact hdest hty
  · rw [if_neg hvid]
    exact hamts v hv

/-- The operation is a create or a restore. -/
def createOrRestore : Op → Prop
  | .create _ => True
  | .restore _ => True
  | _ => False

instance (op : Op) : Decidable (createOrRestore op) := by
  unfold createOrRestore
  cases op <;> infer_instance

/-- A create request carries a nonnegative conversion rate
(`Number(currency) || 1`) when it is a conversion. -/
def nonnegRate : Op → Prop
  | .create r => r.type = "conversion" → 0 ≤ jsNumOr r.currencyNum 1
  | _ => True

instance (op : Op) : Decidable (nonnegRate op) := by
  unfold nonnegRate
  cases op <;> infer_instance

/-- C1 (amended): starting from a well-formed store with nonnegative
balances and nonnegative stored amounts, every sequence consisting only of
createTransaction and restoreTransaction operations that all succeed, with
nonnegative conversion rates in the create requests, keeps every account
balance nonnegative.  (Every prefix of such a sequence is again such a
sequence, so balances are nonnegative after every operation.)
editTransaction and deleteTransaction are excluded: their reversal step
debits accounts without validation and can drive a balance negative. -/
theorem no_negative_balance_amended (cr : String → String → Rat) (dc : String)
    (s0 : St) (ops : List Op)
    (hwf : WF s0) (hamt : amountsOk s0) (hnn : nonnegBalances s0)
    (hops : ∀ op ∈ ops, createOrRestore op ∧ nonnegRate op)
    (hsuc : allSucceed cr dc s0 ops) :
    nonnegBalances (runOps cr dc s0 ops) := by
  induction ops generalizing s0 with
  | nil => exact hnn
  | cons op rest ih =>
    obtain ⟨hcr, hrate⟩ := hops op (List.mem_cons_self _ _)
    obtain ⟨hstep, hrest⟩ := hsuc
    have hops2 : ∀ o ∈ rest, createOrRestore o ∧ nonnegRate o :=
      fun o ho => hops o (List.mem_cons_of_mem _ ho)
    refine ih (step cr dc s0 op).1 (WF_step cr dc s0 op hwf) ?_ ?_ hops2 hrest
    · cases op with
      | create r => exact amountsOk_create cr dc r s0 hstep hrate hamt
      | restore tid => exact amountsOk_restore tid s0 hstep hamt
      | edit tid r => exact absurd hcr (by simp [createOrRestore])
      | delete tid reason now => exact absurd hcr (by simp [createOrRestore])
    · cases op with
      | create r => exact nonneg_create cr dc r s0 hwf hnn hstep hrate
      | restore tid => exact nonneg_restore tid s0 hwf hamt hnn hstep
      | edit tid r => exact absurd hcr (by simp [createOrRestore])
      | delete tid reason now => exact absurd hcr (by simp [createOrRestore])

/-- Fixture: a store with a single zero-balance account. -/
def c1St : St := { accounts := [⟨1, 0⟩], txns := [], history := [], nextTxnId := 1 }

/-- Fixture: an expense request spending 60 from account 1. -/
def c1ExpenseReq : TxnReq :=
  { account_id := some 1
    to_account_id := none
    date := "2026-01-04"
    type := "expense"
    category := "food"
    amount := some 60
    currencyTruthy := false
    currencyNum := none
    currencyStr := ""
    description := "" }

/-- Fixture: credit 100, spend 60, then delete the credit. -/
def c1Ops : List Op :=
  [Op.create wIncomeReq, Op.create c1ExpenseReq, Op.delete 1 "oops" "2026-01-05"]

/-- Counterexample to C1 as stated: from a zero balance, a successful
income of 100, a successful (validated) expense of 60 and a successful
delete of the income leave account 1 at balance -60: every operation in
the sequence succeeds, yet a balance is negative afterwards. -/
theorem c1_counterexample :
    nonnegBalances c1St ∧
    allSucceed (fun _ _ => (1 : Rat)) "USD" c1St c1Ops ∧
    ¬ nonnegBalances (runOps (fun _ _ => (1 : Rat)) "USD" c1St c1Ops) := by
  refine ⟨?_, ?_, ?_⟩ <;>
    norm_num +decide [nonnegBalances, allSucceed, runOps, step, c1St, c1Ops,
      wIncomeReq, c1ExpenseReq, createTransaction, createCommit,
      createBalanceUpdate, builtTxn, convFields, convertCurrency,
      validateTransactionInput, findAccount, findActiveTxn,
      validateSufficientBalance, mathAbs, numAmount, idTruthy, idVal,
      jsIdOrNone, jsNumOr, jsNumOrNone, jsStrOr, debitType, deleteTransaction,
      reverseTransactionEffect, reverseDeltas, destAmount, applyDeltas,
      updateBalance, updateTxn, recordTransactionHistory, histRowOf,
      effectDeltas, List.find?]

/-- Witness for the amended C1: a single successful create keeps balances
nonnegative. -/
theorem no_negative_balance_amended_witness :
    nonnegBalances (runOps (fun _ _ => (1 : Rat)) "USD" c1St [Op.create wIncomeReq]) :=
  no_negative_balance_amended (fun _ _ => (1 : Rat)) "USD" c1St [Op.create wIncomeReq]
    (by decide)
    (by intro t ht; cases ht)
    (by norm_num [nonnegBalances, c1St])
    (by
      intro op hop
      rw [List.mem_singleton] at hop
      subst hop
      exact ⟨trivial, fun h => absurd h (by decide)⟩)
    (by
      refine ⟨?_, trivial⟩
      norm_num +decide [step, createTransaction, createCommit_snd, c1St, wIncomeReq,
        validateTransactionInput, findAccount, validateSufficientBalance, mathAbs,
        numAmount, idTruthy, idVal, debitType, List.find?])
